import Mathlib

/-!
# ImgBed worker (`src/worker.js`): a shallow embedding

The worker fronts a GitHub repository with a public proxy and an authenticated
admin API.  JavaScript strings are sequences of UTF-16 code units, values that
may be `undefined`/`null` are `Option`s, thrown errors are `Except` values that
carry `e.message`, and the outside world (upstream `fetch`, the edge cache,
`Math.random`) is explicit: an oracle answers each upstream call, every call is
appended to a log, and the cache is a key/value store.
-/

namespace ImgBed

/-! ## Strings -/

/-- A JavaScript string: its sequence of UTF-16 code units. -/
abbrev JSString := List Nat

/-- UTF-16 code units of one Unicode scalar value. -/
def utf16 (c : Char) : List Nat :=
  if c.toNat < 65536 then [c.toNat]
  else [55296 + (c.toNat - 65536) / 1024, 56320 + (c.toNat - 65536) % 1024]

/-- The JavaScript string written as the given literal. -/
def js (s : String) : JSString := s.toList.flatMap utf16

/-- The relational operator `a < b` on two strings: code units are compared
left to right, and a proper prefix is smaller. -/
def jsLt : JSString → JSString → Bool
  | [], [] => false
  | [], _ :: _ => true
  | _ :: _, [] => false
  | a :: as, b :: bs => if a < b then true else if b < a then false else jsLt as bs

/-- The relational operator `a > b` on two strings. -/
def jsGt (a b : JSString) : Bool := jsLt b a

/-- `s.startsWith(p)`. -/
def startsWith : JSString → JSString → Bool
  | _, [] => true
  | [], _ :: _ => false
  | c :: cs, p :: ps => if c = p then startsWith cs ps else false

/-- `s.includes(p)`: `p` occurs in `s` at some position. -/
def includes : JSString → JSString → Bool
  | [], p => startsWith [] p
  | c :: cs, p => startsWith (c :: cs) p || includes cs p

/-- Template-literal interpolation of a value that is a string or `undefined`. -/
def interp : Option JSString → JSString
  | some s => s
  | none => js "undefined"

/-! ## `Array.prototype.sort` -/

/-- Insertion of `x` into a list in front of the first element it does not
compare greater than. -/
def insertSorted {α : Type} (cmp : α → α → Int) (x : α) : List α → List α
  | [] => [x]
  | y :: ys => if cmp x y ≤ 0 then x :: y :: ys else y :: insertSorted cmp x ys

/-- `arr.sort(cmp)`: a stable comparison sort driven by the sign of `cmp`,
embedded as insertion sort (the engine uses binary insertion inside TimSort; for
a consistent comparator every stable sort returns the same array). -/
def jsSort {α : Type} (cmp : α → α → Int) : List α → List α
  | [] => []
  | x :: xs => insertSorted cmp x (jsSort cmp xs)

/-! ## Configuration (`CONFIG`) -/

def PROXY_PREFIX : JSString := js "/51hhh/img_bed/main"
def ADMIN_ROUTE : JSString := js "/admin"
def UPSTREAM_DOMAIN : JSString := js "raw.githubusercontent.com"
def CACHE_TTL_DASHBOARD : Nat := 300
def CACHE_TTL_FOLDER : Nat := 60
def COOKIE_NAME : JSString := js "imgbed_session"
def BLOCKED_REGIONS : List JSString := [js "KP", js "SY", js "PK", js "CU"]
def BLOCKED_IPS : List JSString := [js "0.0.0.0", js "127.0.0.1"]

/-! ## Base64 (`btoa`, `atob`) -/

def base64Alphabet : JSString :=
  js "ABCDEFGHIJKLMNOPQRSTUVWXYZabcdefghijklmnopqrstuvwxyz0123456789+/"

/-- The base64 character of a six-bit value. -/
def base64Char (n : Nat) : Nat := base64Alphabet.getD n 0

/-- The six-bit value of a base64 character. -/
def base64Val (c : Nat) : Option Nat :=
  if base64Alphabet.contains c then some (base64Alphabet.indexOf c) else none

/-- Base64 of a byte sequence, three bytes to four characters, `=` padded. -/
def base64Encode : List Nat → List Nat
  | [] => []
  | [a] => [base64Char (a / 4), base64Char (a % 4 * 16), 61, 61]
  | [a, b] => [base64Char (a / 4), base64Char (a % 4 * 16 + b / 16), base64Char (b % 16 * 4), 61]
  | a :: b :: c :: rest =>
    base64Char (a / 4) :: base64Char (a % 4 * 16 + b / 16) ::
      base64Char (b % 16 * 4 + c / 64) :: base64Char (c % 64) :: base64Encode rest

/-- Message of the `InvalidCharacterError` raised by `btoa`/`atob` (engine text). -/
def invalidCharacterMsg : JSString := js "InvalidCharacterError"

/-- `btoa(s)`: throws when a code unit exceeds 255. -/
def btoa (s : JSString) : Except JSString JSString :=
  if s.all (fun c => decide (c ≤ 255)) then .ok (base64Encode s) else .error invalidCharacterMsg

/-- Bytes of a list of six-bit values; a trailing group of two or three values
gives one or two bytes, the spare bits are dropped. -/
def base64DecodeGroups : List Nat → List Nat
  | a :: b :: c :: d :: rest =>
    (a * 4 + b / 16) :: (b % 16 * 16 + c / 4) :: (c % 4 * 64 + d) :: base64DecodeGroups rest
  | [a, b, c] => [a * 4 + b / 16, b % 16 * 16 + c / 4]
  | [a, b] => [a * 4 + b / 16]
  | _ => []

/-- ASCII whitespace as removed by `atob`: TAB, LF, FF, CR, SPACE. -/
def isAsciiWhitespace (c : Nat) : Bool := c = 9 || c = 10 || c = 12 || c = 13 || c = 32

/-- Removal of one or two trailing `=` when the length is a multiple of four. -/
def stripPadding (d : JSString) : JSString :=
  if d.length % 4 = 0 then
    match d.reverse with
    | 61 :: 61 :: r => r.reverse
    | 61 :: r => r.reverse
    | _ => d
  else d

/-- `atob(s)`: the forgiving base64 decoder; throws on malformed input. -/
def atob (s : JSString) : Except JSString JSString :=
  let d := stripPadding (s.filter (fun c => !isAsciiWhitespace c))
  if d.length % 4 = 1 then .error invalidCharacterMsg
  else match d.mapM base64Val with
    | none => .error invalidCharacterMsg
    | some vs => .ok (base64DecodeGroups vs)

/-! ## The outside world -/

/-- An upstream request issued through `fetch`; `body` is the object passed to
`JSON.stringify`, as its list of present fields. -/
structure FetchReq where
  method : JSString
  url : JSString
  headers : List (JSString × JSString)
  body : Option (List (JSString × JSString))
deriving DecidableEq, Repr

/-- An item of a contents listing, with the five fields `listPath` keeps. -/
structure ContentItem where
  name : JSString
  path : JSString
  type : JSString
  sha : JSString
  download_url : Option JSString
deriving DecidableEq, Repr

/-- An object of the recursive tree snapshot (`data.tree[i]`). -/
structure TreeEntry where
  path : JSString
  type : JSString
deriving DecidableEq, Repr

/-- The parsed JSON of an upstream answer, as far as the worker inspects it: an
array of items, or a non-array value with its `tree` property (when present). -/
inductive Json where
  | array (items : List ContentItem)
  | object (tree : Option (List TreeEntry))
deriving DecidableEq, Repr

/-- An upstream response: status, raw body bytes (`arrayBuffer()`), and the
result of `json()` (`none` when the body does not parse). -/
structure FetchResp where
  status : Nat
  bytes : List Nat
  json : Option Json
deriving DecidableEq, Repr

/-- `res.ok`: the status is in the range 200-299. -/
def FetchResp.ok (r : FetchResp) : Bool := decide (200 ≤ r.status) && decide (r.status ≤ 299)

/-- An Asset Record of the tree index. -/
structure Asset where
  path : JSString
  url : JSString
deriving DecidableEq, Repr

/-- An observable operation on the outside world. -/
inductive Effect where
  | fetch (req : FetchReq)
  | cacheMatch (key : JSString)
  | cachePut (key : JSString) (value : List Asset)
deriving DecidableEq, Repr

/-- The platform the worker runs on: the answer of the network to each request
given the operations so far (`none` is a rejected `fetch`), the collation of
`String.prototype.localeCompare`, the value of
`Math.floor(Math.random() * n)` at the `i`-th draw, and the header list of the
answer of the network (`response.headers`). -/
structure Platform where
  fetch : List Effect → FetchReq → Option FetchResp
  localeCompare : JSString → JSString → Int
  random : Nat → Nat → Nat
  responseHeaders : List Effect → FetchReq → List (JSString × JSString) := fun _ _ => []

/-- The mutable outside state: the log of operations and the edge cache. -/
structure World where
  log : List Effect
  cache : List (JSString × List Asset)
deriving DecidableEq, Repr

/-- Message of the `TypeError` of a rejected `fetch` (engine text). -/
def networkErrorMsg : JSString := js "TypeError: fetch failed"
/-- Message of the `SyntaxError` of `json()` on a non-JSON body (engine text). -/
def jsonSyntaxMsg : JSString := js "SyntaxError: invalid JSON"
/-- Message of the `TypeError` of a property access on `undefined` (engine text). -/
def typeErrorMsg : JSString := js "TypeError"

/-- `await fetch(url, init)`: logs the call and asks the platform. -/
def doFetch (P : Platform) (req : FetchReq) (w : World) : Except JSString FetchResp × World :=
  let w1 : World := { w with log := w.log ++ [Effect.fetch req] }
  match P.fetch w.log req with
  | some r => (.ok r, w1)
  | none => (.error networkErrorMsg, w1)

/-- `await cache.match(key)`. -/
def cacheMatch (key : JSString) (w : World) : Option (List Asset) × World :=
  (w.cache.lookup key, { w with log := w.log ++ [Effect.cacheMatch key] })

/-- `ctx.waitUntil(cache.put(key, response))`, the store taking effect. -/
def cachePut (key : JSString) (value : List Asset) (w : World) : World :=
  { log := w.log ++ [Effect.cachePut key value], cache := (key, value) :: w.cache }

/-- The operations a run added to the log. -/
def issued (before after : World) : List Effect := after.log.drop before.log.length

/-! ## Service layer: `GitHubService` -/

/-- The service object built from `env.GH_TOKEN` and `env.GH_REPO`. -/
structure GitHubService where
  token : Option JSString
  repo : Option JSString
deriving DecidableEq, Repr

namespace GitHubService

def branch (_gh : GitHubService) : JSString := js "main"

def baseUrl (gh : GitHubService) : JSString := js "https://api.github.com/repos/" ++ interp gh.repo

def headers (gh : GitHubService) : List (JSString × JSString) :=
  [(js "User-Agent", js "Cloudflare-Worker-Admin"),
   (js "Authorization", js "token " ++ interp gh.token),
   (js "Accept", js "application/vnd.github.v3+json"),
   (js "Content-Type", js "application/json")]

end GitHubService

/-- Canonical form of a code unit under the `i` flag, for comparison with the
ASCII letters of a pattern: ASCII lower case goes to upper case, and no code
unit outside ASCII is identified with an ASCII one. -/
def canonicalize (c : Nat) : Nat := if 97 ≤ c ∧ c ≤ 122 then c - 32 else c

/-- The test `/\.(e1|e2|...)$/i.test(s)`: `s` ends with a dot and one of the
extensions, letter case ignored. -/
def testExtension (exts : List JSString) (s : JSString) : Bool :=
  exts.any fun e =>
    startsWith (s.map canonicalize).reverse ((js "." ++ e).map canonicalize).reverse

/-- Extensions of the tree-index filter, `/\.(jpg|jpeg|png|gif|webp|svg)$/i`. -/
def indexExtensions : List JSString :=
  [js "jpg", js "jpeg", js "png", js "gif", js "webp", js "svg"]

/-- Extensions of the browse filter, `/\.(jpg|png|gif|webp|svg|jpeg)$/i`. -/
def browseExtensions : List JSString :=
  [js "jpg", js "png", js "gif", js "webp", js "svg", js "jpeg"]

/-- ASCII lower case of a code unit. -/
def toLowerAscii (c : Nat) : Nat := if 65 ≤ c ∧ c ≤ 90 then c + 32 else c

/-- The image extensions of the specification. -/
def imageExtensions : List JSString :=
  [js "jpg", js "jpeg", js "png", js "gif", js "webp", js "svg"]

/-- The specification's filter: the string ends in a dot and one of the image
extensions, letter case ignored. -/
def hasImageExtension (s : JSString) : Prop :=
  ∃ e ∈ imageExtensions, (js "." ++ e) <:+ s.map toLowerAscii

/-- A code unit of a pattern: a dot or a lower-case ASCII letter. -/
def patternUnit (d : Nat) : Prop := d = 46 ∨ (97 ≤ d ∧ d ≤ 122)

/-- The parsed request URL: `origin`, `pathname`, `searchParams.get('path')`,
and the components `protocol` (with its colon), `hostname`, `port` (empty for
the default port) and `search` (empty, or the query with its question mark).
A request URL has no fragment and no credentials. -/
structure URL where
  origin : JSString
  pathname : JSString
  searchPath : Option JSString
  protocol : JSString := js "https:"
  hostname : JSString := []
  port : JSString := []
  search : JSString := []
deriving DecidableEq, Repr

/-- The key of the cached tree index, `origin + '/cache-key-tree-v7'`. -/
def cacheKey (url : URL) : JSString := url.origin ++ js "/cache-key-tree-v7"

/-- `JSON.stringify` of an object literal: fields whose value is `undefined`
are left out. -/
def jsonObject (fields : List (JSString × Option JSString)) : List (JSString × JSString) :=
  fields.filterMap fun kv => kv.2.map fun v => (kv.1, v)

namespace GitHubService

/-- The tree snapshot call of `getAllFilesCached`. -/
def treeRequest (gh : GitHubService) : FetchReq :=
  { method := js "GET", url := gh.baseUrl ++ js "/git/trees/" ++ gh.branch ++ js "?recursive=1",
    headers := gh.headers, body := none }

/-- The contents call of `listPath`. -/
def contentsRequest (gh : GitHubService) (path : JSString) : FetchReq :=
  { method := js "GET", url := gh.baseUrl ++ js "/contents/" ++ path ++ js "?ref=" ++ gh.branch,
    headers := gh.headers, body := none }

/-- The DELETE call of `deleteFile`. -/
def deleteRequest (gh : GitHubService) (path sha : Option JSString) : FetchReq :=
  { method := js "DELETE", url := gh.baseUrl ++ js "/contents/" ++ interp path,
    headers := gh.headers,
    body := some (jsonObject [(js "message", some (js "Delete " ++ interp path)), (js "sha", sha),
      (js "branch", some gh.branch)]) }

/-- The download call of `moveFile`, `fetch(fileUrl)`. -/
def downloadRequest (fileUrl : JSString) : FetchReq :=
  { method := js "GET", url := fileUrl, headers := [], body := none }

/-- The PUT call of `moveFile`. -/
def putRequest (gh : GitHubService) (oldPath newPath : Option JSString) (content : JSString) :
    FetchReq :=
  { method := js "PUT", url := gh.baseUrl ++ js "/contents/" ++ interp newPath,
    headers := gh.headers,
    body := some (jsonObject
      [(js "message", some (js "Move " ++ interp oldPath ++ js " to " ++ interp newPath)),
       (js "content", some content), (js "branch", some gh.branch)]) }

/-- The content field of the PUT body: `btoa(String.fromCharCode(...new Uint8Array(buffer)))`. -/
def encodeContent (bytes : List Nat) : Except JSString JSString :=
  btoa (bytes.map fun b => b % 256)

/-- `getAllFilesCached(requestUrl)`. -/
def getAllFilesCached (gh : GitHubService) (P : Platform) (requestUrl : URL) (w : World) :
    Except JSString (List Asset) × World :=
  let key := cacheKey requestUrl
  match cacheMatch key w with
  | (some cached, w1) => (.ok cached, w1)
  | (none, w1) =>
    match doFetch P gh.treeRequest w1 with
    | (.error e, w2) => (.error e, w2)
    | (.ok res, w2) =>
      if !res.ok then (.error (js "GitHub API Error"), w2)
      else match res.json with
        | none => (.error jsonSyntaxMsg, w2)
        | some (.object (some tree)) =>
          let images : List Asset :=
            (tree.filter fun i => decide (i.type = js "blob") && testExtension indexExtensions i.path).map
              fun i => { path := i.path, url := PROXY_PREFIX ++ js "/" ++ i.path }
          (.ok images, cachePut key images w2)
        | some _ => (.error typeErrorMsg, w2)

/-- The comparator of `listPath`: entries of one type by `localeCompare` of
their names, otherwise a `dir` first. -/
def compareItems (lc : JSString → JSString → Int) (a b : ContentItem) : Int :=
  if a.type = b.type then lc a.name b.name
  else if a.type = js "dir" then -1 else 1

/-- `listPath(path)`. -/
def listPath (gh : GitHubService) (P : Platform) (path : JSString) (w : World) :
    Except JSString (List ContentItem) × World :=
  match doFetch P (gh.contentsRequest path) w with
  | (.error e, w1) => (.error e, w1)
  | (.ok res, w1) =>
    if !res.ok then (.error (js "Fetch Path Error: " ++ js (toString res.status)), w1)
    else match res.json with
      | none => (.error jsonSyntaxMsg, w1)
      | some (.array data) =>
        (.ok (jsSort (compareItems P.localeCompare)
          (data.map fun item => { name := item.name, path := item.path, type := item.type,
                                  sha := item.sha, download_url := item.download_url })), w1)
      | some (.object _) => (.ok [], w1)

/-- `deleteFile(path, sha)`: the response of the DELETE call is not inspected. -/
def deleteFile (gh : GitHubService) (P : Platform) (path sha : Option JSString) (w : World) :
    Except JSString Unit × World :=
  match doFetch P (gh.deleteRequest path sha) w with
  | (.error e, w1) => (.error e, w1)
  | (.ok _, w1) => (.ok (), w1)

/-- `moveFile(oldPath, newPath, sha, fileUrl)`. -/
def moveFile (gh : GitHubService) (P : Platform) (oldPath newPath sha : Option JSString)
    (fileUrl : JSString) (w : World) : Except JSString Unit × World :=
  match doFetch P (downloadRequest fileUrl) w with
  | (.error e, w1) => (.error e, w1)
  | (.ok contentResp, w1) =>
    if !contentResp.ok then (.error (js "Download source failed"), w1)
    else match encodeContent contentResp.bytes with
      | .error e => (.error e, w1)
      | .ok content =>
        match doFetch P (gh.putRequest oldPath newPath content) w1 with
        | (.error e, w2) => (.error e, w2)
        | (.ok putRes, w2) =>
          if !putRes.ok then (.error (js "Create new file failed"), w2)
          else deleteFile gh P oldPath sha w2

end GitHubService

/-! ## Controller layer: `AdminController` -/

/-- The fields the admin API reads from a JSON request body; an absent field
is `undefined`. -/
structure JsonBody where
  oldPath : Option JSString
  newPath : Option JSString
  sha : Option JSString
  fileUrl : Option JSString
  path : Option JSString
deriving DecidableEq, Repr

/-- The fields `handleLogin` reads from the form; an absent field is `null`. -/
structure FormData where
  username : Option JSString
  password : Option JSString
deriving DecidableEq, Repr

/-- An inbound request: `json` and `formData` are `none` when the respective
body reader rejects; `cookie` is `headers.get('Cookie')`, `headers` the header
list, `country` is `cf?.country` and `body` the raw body, if any. -/
structure Request where
  method : JSString
  url : URL
  cookie : Option JSString
  json : Option JsonBody
  formData : Option FormData
  headers : List (JSString × JSString) := []
  country : Option JSString := none
  body : Option (List Nat) := none
deriving DecidableEq, Repr

/-- The environment bindings; an unset binding is `undefined`. -/
structure Env where
  ADMIN_USER : Option JSString
  ADMIN_PASS : Option JSString
  GH_TOKEN : Option JSString
  GH_REPO : Option JSString
deriving DecidableEq, Repr

/-- The HTML templates, by name. -/
inductive Page where
  | LOGIN_HTML
  | LOGIN_HTML_ERROR
  | MAIN_HTML
deriving DecidableEq, Repr

/-- A browse entry: a listing item with its `url` (`null` when absent). -/
structure BrowseItem where
  item : ContentItem
  url : Option JSString
deriving DecidableEq, Repr

/-- The body of a response, before serialisation. -/
inductive Payload where
  | text (s : JSString)
  | html (page : Page)
  | error (message : JSString)
  | success
  | dashboard (recent : List Asset) (random : List (Option Asset))
  | browse (items : List BrowseItem)
  | urls (urls : List JSString)
  | stream (bytes : List Nat)
  | empty
deriving DecidableEq, Repr

structure Response where
  status : Nat
  headers : List (JSString × JSString)
  body : Payload
deriving DecidableEq, Repr

namespace AdminController

/-- `json(data, status, extraHeaders)`; callers that omit the last two pass
the defaults `200` and `{}`. -/
def json (data : Payload) (status : Nat) (extraHeaders : List (JSString × JSString)) :
    Response :=
  { status := status, headers := (js "Content-Type", js "application/json") :: extraHeaders,
    body := data }

/-- Capture group of the first match of `/imgbed_session=([^;]+)/` in `s`. -/
def matchCookie : JSString → Option JSString
  | [] => none
  | c :: cs =>
    let rest := (c :: cs).drop (COOKIE_NAME ++ js "=").length
    let captured := rest.takeWhile fun x => decide (x ≠ 59)
    if startsWith (c :: cs) (COOKIE_NAME ++ js "=") && !captured.isEmpty then some captured
    else matchCookie cs

/-- `s.split(sep)` for a one-unit separator. -/
def split (sep : Nat) : JSString → List JSString
  | [] => [[]]
  | c :: cs =>
    if c = sep then [] :: split sep cs
    else match split sep cs with
      | h :: t => (c :: h) :: t
      | [] => [[c]]

/-- `checkCookie(request, env)`. -/
def checkCookie (request : Request) (env : Env) : Bool :=
  match request.cookie with
  | none => false
  | some cookie =>
    if cookie.isEmpty then false
    else match matchCookie cookie with
      | none => false
      | some tok =>
        match atob tok with
        | .error _ => false
        | .ok decoded =>
          let parts := split 58 decoded
          decide (parts.get? 0 = env.ADMIN_USER) && decide (parts.get? 1 = env.ADMIN_PASS)

/-- Strict equality of a form value (string or `null`) with a binding (string
or `undefined`). -/
def formEq (a b : Option JSString) : Bool :=
  match a, b with
  | some x, some y => decide (x = y)
  | _, _ => false

/-- `handleLogin(request, env)`; an error is a rejected promise. -/
def handleLogin (request : Request) (env : Env) : Except JSString Response :=
  match request.formData with
  | none => .error typeErrorMsg
  | some formData =>
    if formEq formData.username env.ADMIN_USER && formEq formData.password env.ADMIN_PASS then
      match btoa (interp formData.username ++ js ":" ++ interp formData.password) with
      | .error e => .error e
      | .ok token =>
        .ok { status := 302,
              headers := [(js "Set-Cookie", COOKIE_NAME ++ js "=" ++ token ++ js "; Path=" ++ ADMIN_ROUTE
                            ++ js "; Max-Age=86400; HttpOnly; SameSite=Strict; Secure"),
                          (js "Location", ADMIN_ROUTE)],
              body := .text (js "Success") }
    else
      .ok { status := 200, headers := [(js "Content-Type", js "text/html;charset=UTF-8")],
            body := .html .LOGIN_HTML_ERROR }

/-- The comparator of the dashboard sort, `(a, b) => (a.path > b.path ? -1 : 1)`. -/
def comparePaths (a b : Asset) : Int := if jsGt a.path b.path then -1 else 1

/-- The sampling loop, with `count - i` iterations left: push `others[idx]`
(`undefined` when out of range), then `others.splice(idx, 1)`. -/
def sampleLoop (draw : Nat → Nat → Nat) :
    Nat → Nat → List Asset → List (Option Asset) → List (Option Asset)
  | 0, _, _, random => random
  | left + 1, i, others, random =>
    let idx := draw i others.length
    sampleLoop draw left (i + 1) (others.eraseIdx idx) (random ++ [others.get? idx])

/-- The dashboard computation on the asset list: `(recent, random)`. -/
def dashboard (draw : Nat → Nat → Nat) (allImages : List Asset) :
    List Asset × List (Option Asset) :=
  let sorted := jsSort comparePaths allImages
  let recent := sorted.take 20
  let others := sorted.drop 20
  let count := min 20 others.length
  (recent, sampleLoop draw count 0 others [])

/-- The browse mapping of one listing item. -/
def browseItem (i : ContentItem) : BrowseItem :=
  { item := i,
    url := if i.type = js "file" ∧ testExtension browseExtensions i.name = true
           then some (PROXY_PREFIX ++ js "/" ++ i.path) else none }

/-- The batch-export computation: urls of the assets whose path starts with
the requested string. -/
def batchExport (pre : JSString) (allImages : List Asset) : List JSString :=
  (allImages.filter fun img => startsWith img.path pre).map fun i => i.url

/-- The operand of `value || ''`. -/
def orEmpty : Option JSString → JSString
  | some s => s
  | none => []

/-- `!value` for a string or `undefined`. -/
def falsy : Option JSString → Bool
  | some s => s.isEmpty
  | none => true

/-- `handle(request, env, ctx)`; an error is an exception that escapes. -/
def handle (P : Platform) (request : Request) (env : Env) (w : World) :
    Except JSString Response × World :=
  let url := request.url
  if url.pathname = ADMIN_ROUTE ++ js "/login" ∧ request.method = js "POST" then
    (handleLogin request env, w)
  else if !checkCookie request env then
    if includes url.pathname (js "/api/") then (.ok (json (.error (js "Unauthorized")) 401 []), w)
    else (.ok { status := 200, headers := [(js "Content-Type", js "text/html;charset=UTF-8")],
                body := .html .LOGIN_HTML }, w)
  else
    let gh : GitHubService := { token := env.GH_TOKEN, repo := env.GH_REPO }
    if url.pathname = ADMIN_ROUTE ++ js "/api/dashboard" then
      match gh.getAllFilesCached P url w with
      | (.error e, w1) => (.ok (json (.error e) 500 []), w1)
      | (.ok allImages, w1) =>
        let r := dashboard P.random allImages
        (.ok (json (.dashboard r.1 r.2) 200 []), w1)
    else if url.pathname = ADMIN_ROUTE ++ js "/api/browse" then
      match gh.listPath P (orEmpty url.searchPath) w with
      | (.error e, w1) => (.ok (json (.error e) 500 []), w1)
      | (.ok items, w1) =>
        (.ok (json (.browse (items.map browseItem)) 200
          [(js "Cache-Control", js "private, max-age=" ++ js (toString CACHE_TTL_FOLDER))]), w1)
    else if url.pathname = ADMIN_ROUTE ++ js "/api/batch_export" then
      match gh.getAllFilesCached P url w with
      | (.error e, w1) => (.ok (json (.error e) 500 []), w1)
      | (.ok allImages, w1) => (.ok (json (.urls (batchExport (orEmpty url.searchPath) allImages)) 200 []), w1)
    else if request.method = js "POST" ∧ url.pathname = ADMIN_ROUTE ++ js "/api/move" then
      match request.json with
      | none => (.ok (json (.error jsonSyntaxMsg) 500 []), w)
      | some b =>
        if falsy b.newPath || decide (b.newPath = b.oldPath) then
          (.ok (json (.error (js "Invalid path")) 500 []), w)
        else match b.fileUrl with
          | none => (.ok (json (.error typeErrorMsg) 500 []), w)
          | some fileUrl =>
            let fullUrl := if startsWith fileUrl (js "http") then fileUrl else url.origin ++ fileUrl
            match gh.moveFile P b.oldPath b.newPath b.sha fullUrl w with
            | (.error e, w1) => (.ok (json (.error e) 500 []), w1)
            | (.ok _, w1) => (.ok (json .success 200 []), w1)
    else if request.method = js "POST" ∧ url.pathname = ADMIN_ROUTE ++ js "/api/delete" then
      match request.json with
      | none => (.ok (json (.error jsonSyntaxMsg) 500 []), w)
      | some b =>
        match gh.deleteFile P b.path b.sha w with
        | (.error e, w1) => (.ok (json (.error e) 500 []), w1)
        | (.ok _, w1) => (.ok (json .success 200 []), w1)
    else if url.pathname = ADMIN_ROUTE ++ js "/logout" then
      (.ok { status := 302,
             headers := [(js "Location", ADMIN_ROUTE),
                         (js "Set-Cookie", COOKIE_NAME ++ js "=; Path=" ++ ADMIN_ROUTE
                            ++ js "; Max-Age=0; HttpOnly; SameSite=Strict")],
             body := .text (js "Logged out") }, w)
    else
      (.ok { status := 200, headers := [(js "Content-Type", js "text/html;charset=UTF-8")],
             body := .html .MAIN_HTML }, w)

end AdminController

/-! ## `Headers` -/

/-- ASCII lower case of a header name; names are compared without regard to
case. -/
def lowerName (name : JSString) : JSString := name.map toLowerAscii

/-- `headers.get(name)`: the values under the name joined by `", "`, or `null`. -/
def headersGet (name : JSString) (hs : List (JSString × JSString)) : Option JSString :=
  match (hs.filter fun h => decide (lowerName h.1 = lowerName name)).map fun h => h.2 with
  | [] => none
  | v :: vs => some (vs.foldl (fun acc x => acc ++ js ", " ++ x) v)

/-- `headers.delete(name)`. -/
def headersDelete (name : JSString) (hs : List (JSString × JSString)) :
    List (JSString × JSString) :=
  hs.filter fun h => !decide (lowerName h.1 = lowerName name)

/-- `headers.set(name, value)`: the first header of that name takes the value
and the others are removed; without one, the header is appended. -/
def headersSet (name value : JSString) : List (JSString × JSString) → List (JSString × JSString)
  | [] => [(name, value)]
  | h :: hs =>
    if lowerName h.1 = lowerName name then (h.1, value) :: headersDelete name hs
    else h :: headersSet name value hs

/-- The values stored under a lower-case name, in order. -/
def valuesOf (m : JSString) (hs : List (JSString × JSString)) : List JSString :=
  (hs.filter fun h => decide (lowerName h.1 = m)).map fun h => h.2

/-- The four header names the relay sets or strips. -/
def relayNames : List JSString :=
  [js "access-control-allow-origin", js "cache-control", js "content-security-policy",
   js "x-frame-options"]

/-- The headers the relay leaves alone. -/
def untouched (hs : List (JSString × JSString)) : List (JSString × JSString) :=
  hs.filter fun h => decide (lowerName h.1 ∉ relayNames)

/-! ## Service layer: `ProxyService` -/

namespace URL

/-- The assignment `url.host = value` for a value without a port: the host name
changes, the port stays. -/
def setHost (url : URL) (value : JSString) : URL :=
  { url with hostname := value,
             origin := url.protocol ++ js "//" ++ value ++
               (if url.port = [] then [] else js ":" ++ url.port) }

/-- The serialisation `url.href`. -/
def href (url : URL) : JSString :=
  url.protocol ++ js "//" ++ url.hostname ++ (if url.port = [] then [] else js ":" ++ url.port)
    ++ url.pathname ++ url.search

end URL

namespace ProxyService

/-- The upstream call of `handle`: `fetch(url.href, { method, headers })` after
the host rewrite; the init object has no `body`. -/
def upstreamRequest (request : Request) (url : URL) : FetchReq :=
  { method := request.method,
    url := (url.setHost UPSTREAM_DOMAIN).href,
    headers := headersSet (js "Referer") (js "https://github.com/51hhh/img_bed")
      (headersSet (js "Host") UPSTREAM_DOMAIN request.headers),
    body := none }

/-- The header list of the relayed response. -/
def relayHeaders (upstream : List (JSString × JSString)) : List (JSString × JSString) :=
  headersDelete (js "x-frame-options") (headersDelete (js "content-security-policy")
    (headersSet (js "cache-control") (js "public, max-age=31536000")
      (headersSet (js "access-control-allow-origin") (js "*") upstream)))

/-- `ProxyService.handle(request, url)`; every exception is caught and answered
with 502.  That includes the `RangeError` that
`new Response(originalResp.body, { status })` throws for a status outside
200-599.  (A response with a null-body status has a null body, so the other
check of the constructor does not fire.) -/
def handle (P : Platform) (request : Request) (url : URL) (w : World) : Response × World :=
  match doFetch P (upstreamRequest request url) w with
  | (.error _, w1) => ({ status := 502, headers := [], body := .text (js "Proxy Error") }, w1)
  | (.ok originalResp, w1) =>
    if originalResp.status = 404 then
      ({ status := 404, headers := [], body := .text (js "File not found.") }, w1)
    else if originalResp.status < 200 ∨ 599 < originalResp.status then
      ({ status := 502, headers := [], body := .text (js "Proxy Error") }, w1)
    else
      ({ status := originalResp.status,
         headers := relayHeaders (P.responseHeaders w.log (upstreamRequest request url)),
         body := .stream originalResp.bytes }, w1)

end ProxyService

/-! ## Worker entry -/

/-- The operand of `value || fallback` for a string or `null`/`undefined`. -/
def orElse (value : Option JSString) (fallback : JSString) : JSString :=
  match value with
  | some s => if s.isEmpty then fallback else s
  | none => fallback

/-- `isBlocked(request)`. -/
def isBlocked (request : Request) : Bool :=
  let region := orElse request.country (js "XX")
  let ip := orElse (headersGet (js "cf-connecting-ip") request.headers) (js "0.0.0.0")
  BLOCKED_REGIONS.contains region || BLOCKED_IPS.contains ip

/-- The `fetch(request, env, ctx)` handler of the worker. -/
def fetch (P : Platform) (request : Request) (env : Env) (w : World) :
    Except JSString Response × World :=
  let url := request.url
  if isBlocked request then
    (.ok { status := 403, headers := [], body := .text (js "Access denied") }, w)
  else if startsWith url.pathname PROXY_PREFIX then
    let r := ProxyService.handle P request url w
    (.ok r.1, r.2)
  else if startsWith url.pathname ADMIN_ROUTE then
    AdminController.handle P request env w
  else if url.pathname = js "/" then
    (.ok { status := 302, headers := [(js "Location", url.origin ++ ADMIN_ROUTE)],
           body := .empty }, w)
  else
    (.ok { status := 404, headers := [], body := .text (js "404 Not Found") }, w)

/-! ## Sample inputs -/

/-- Comparison of two strings by code units, with the sign convention of
`localeCompare`; a sample collation. -/
def codeUnitCompare (a b : JSString) : Int :=
  if jsLt a b then -1 else if jsLt b a then 1 else 0

/-- A listing item with the given name and type, at the repository root. -/
def sampleItem (name type : String) : ContentItem :=
  { name := js name, path := js name, type := js type, sha := js "0", download_url := none }

/-- The listing `[b.png (file), A (dir), a.png (file), Z (dir)]`. -/
def sampleListing : List ContentItem :=
  [sampleItem "b.png" "file", sampleItem "A" "dir", sampleItem "a.png" "file", sampleItem "Z" "dir"]

/-- A stream of draws that always falls inside the pool. -/
def sampleDraw (i n : Nat) : Nat := (7 * i + 3) % n

/-- A platform whose network answers every call with the given response. -/
def constPlatform (res : FetchResp) : Platform :=
  { fetch := fun _ _ => some res, localeCompare := codeUnitCompare, random := sampleDraw }

def sampleService : GitHubService := { token := some (js "t"), repo := some (js "51hhh/img_bed") }

def emptyWorld : World := { log := [], cache := [] }

/-- A list of 45 assets with distinct two-letter paths. -/
def sampleAssets : List Asset :=
  (List.range 45).map fun n =>
    { path := [97 + n / 10, 97 + n % 10], url := PROXY_PREFIX ++ [47, 97 + n / 10, 97 + n % 10] }
/-- Bindings with the operator `admin` / `pw`. -/
def adminEnv : Env :=
  { ADMIN_USER := some (js "admin"), ADMIN_PASS := some (js "pw"), GH_TOKEN := some (js "t"),
    GH_REPO := some (js "51hhh/img_bed") }

/-- The Cookie header of a logged-in `admin` / `pw` session. -/
def sessionCookie : JSString := js "imgbed_session=YWRtaW46cHc="

/-- A move request whose destination is its source. -/
def moveSamePath : Request :=
  { method := js "POST",
    url := { origin := js "https://img.example", pathname := js "/admin/api/move", searchPath := none },
    cookie := some sessionCookie,
    json := some { oldPath := some (js "a/x.png"), newPath := some (js "a/x.png"),
                   sha := some (js "0"), fileUrl := some (js "/51hhh/img_bed/main/a/x.png"),
                   path := none },
    formData := none }

/-- A network on which the download and the PUT succeed and every DELETE is
refused with status 409. -/
def deleteRefused : Platform :=
  { fetch := fun _ req =>
      if req.method = js "DELETE" then some ⟨409, [], none⟩ else some ⟨200, [137, 80, 78, 71], none⟩,
    localeCompare := codeUnitCompare, random := sampleDraw }

/-- A network on which the download succeeds and every other call is refused
with status 422. -/
def writeRefused : Platform :=
  { fetch := fun _ req =>
      if req.method = js "GET" then some ⟨200, [137, 80, 78, 71], none⟩ else some ⟨422, [], none⟩,
    localeCompare := codeUnitCompare, random := sampleDraw }

/-- A move request from `a/x.png` to `b/x.png`. -/
def moveRequest : Request :=
  { method := js "POST",
    url := { origin := js "https://img.example", pathname := js "/admin/api/move", searchPath := none },
    cookie := some sessionCookie,
    json := some { oldPath := some (js "a/x.png"), newPath := some (js "b/x.png"),
                   sha := some (js "0"), fileUrl := some (js "/51hhh/img_bed/main/a/x.png"),
                   path := none },
    formData := none }

/-- A delete request for `a/x.png`. -/
def deleteRequestSample : Request :=
  { method := js "POST",
    url := { origin := js "https://img.example", pathname := js "/admin/api/delete", searchPath := none },
    cookie := some sessionCookie,
    json := some { oldPath := none, newPath := none, sha := some (js "0"), fileUrl := none,
                   path := some (js "a/x.png") },
    formData := none }

/-- A path whose contents call answers with a single file object. -/
def fileObjectPlatform : Platform := constPlatform ⟨200, [], some (.object none)⟩

/-- A delete request without a Cookie header. -/
def anonymousRequest : Request :=
  { method := js "POST",
    url := { origin := js "https://img.example", pathname := js "/admin/api/delete", searchPath := none },
    cookie := none,
    json := some { oldPath := none, newPath := none, sha := some (js "0"), fileUrl := none,
                   path := some (js "a/x.png") },
    formData := none }

/-- A tree snapshot with three images, a directory and a text file. -/
def sampleTree : List TreeEntry :=
  [⟨js "a/x.png", js "blob"⟩, ⟨js "b/y.JPG", js "blob"⟩, ⟨js "a", js "tree"⟩,
   ⟨js "a/readme.md", js "blob"⟩, ⟨js "a/z.webp", js "blob"⟩]

/-- A network that answers the tree call with the sample tree. -/
def treePlatform : Platform := constPlatform ⟨200, [], some (.object (some sampleTree))⟩

/-- A batch-export request for the paths under `a/`. -/
def exportRequest : Request :=
  { method := js "GET",
    url := { origin := js "https://img.example", pathname := js "/admin/api/batch_export",
             searchPath := some (js "a/") },
    cookie := some sessionCookie, json := none, formData := none }

/-- The index the sample tree produces. -/
def sampleIndex : List Asset :=
  [⟨js "a/x.png", js "/51hhh/img_bed/main/a/x.png"⟩, ⟨js "b/y.JPG", js "/51hhh/img_bed/main/b/y.JPG"⟩,
   ⟨js "a/z.webp", js "/51hhh/img_bed/main/a/z.webp"⟩]
/-- A browse request for the repository root. -/
def browseRequest : Request :=
  { method := js "GET",
    url := { origin := js "https://img.example", pathname := js "/admin/api/browse",
             searchPath := none },
    cookie := some sessionCookie, json := none, formData := none }

/-- A network that answers the contents call with the sample listing. -/
def listingPlatform : Platform := constPlatform ⟨200, [], some (.array sampleListing)⟩

/-- The URL of a dashboard request. -/
def dashboardUrl : URL :=
  { origin := js "https://img.example", pathname := js "/admin/api/dashboard", searchPath := none }

/-- The world after a first index call on the empty world. -/
def afterFirstCall : World :=
  (sampleService.getAllFilesCached treePlatform exportRequest.url emptyWorld).2

/-- Bindings whose password contains a colon. -/
def colonEnv : Env :=
  { ADMIN_USER := some (js "admin"), ADMIN_PASS := some (js "a:b"), GH_TOKEN := some (js "t"),
    GH_REPO := some (js "51hhh/img_bed") }

/-- The login request with the credentials of `colonEnv`. -/
def colonLogin : Request :=
  { method := js "POST",
    url := { origin := js "https://img.example", pathname := js "/admin/login", searchPath := none },
    cookie := none, json := none,
    formData := some { username := some (js "admin"), password := some (js "a:b") } }

/-- A request that presents the cookie issued to `colonLogin`. -/
def colonSession : Request :=
  { method := js "GET",
    url := dashboardUrl,
    cookie := some (COOKIE_NAME ++ js "=" ++ js "YWRtaW46YTpi"), json := none, formData := none }
/-- A public asset request from the address 203.0.113.7. -/
def assetRequest : Request :=
  { method := js "GET",
    url := { origin := js "https://img.example", pathname := js "/51hhh/img_bed/main/a/x.png",
             searchPath := none, hostname := js "img.example", search := js "?v=1" },
    cookie := none, json := none, formData := none,
    headers := [(js "cf-connecting-ip", js "203.0.113.7"), (js "accept", js "image/*")] }

/-- A request to the proxy path that carries a body. -/
def uploadRequest : Request :=
  { method := js "POST",
    url := { origin := js "https://img.example", pathname := js "/51hhh/img_bed/main/a/x.png",
             searchPath := none, hostname := js "img.example" },
    cookie := none, json := none, formData := none,
    headers := [(js "cf-connecting-ip", js "203.0.113.7")],
    body := some [1, 2, 3] }

/-- A request without a `cf-connecting-ip` header, from a country that is not
blocked. -/
def noAddressRequest : Request :=
  { method := js "GET",
    url := { origin := js "https://img.example", pathname := js "/admin", searchPath := none },
    cookie := some sessionCookie, json := none, formData := none,
    headers := [(js "accept", js "text/html")], country := some (js "DE") }

/-- Header list of a raw-content answer. -/
def rawHeaders : List (JSString × JSString) :=
  [(js "content-type", js "image/png"), (js "Cache-Control", js "max-age=300"),
   (js "content-security-policy", js "default-src none"), (js "x-frame-options", js "deny"),
   (js "etag", js "W/abc")]

/-- A network whose raw-content host answers with the given status, an error
page as body and `rawHeaders`. -/
def rawPlatform (status : Nat) : Platform :=
  { fetch := fun _ _ => some ⟨status, [110, 111], none⟩,
    localeCompare := codeUnitCompare, random := sampleDraw,
    responseHeaders := fun _ _ => rawHeaders }
/-- A dashboard request whose token decodes to `admin:pw:x`. -/
def extraFieldSession : Request :=
  { method := js "GET",
    url := { origin := js "https://img.example", pathname := js "/admin/api/dashboard",
             searchPath := none },
    cookie := some (js "imgbed_session=YWRtaW46cHc6eA=="), json := none, formData := none }

/-- A dashboard request whose only cookie is named `ximgbed_session`. -/
def otherCookieSession : Request :=
  { method := js "GET",
    url := { origin := js "https://img.example", pathname := js "/admin/api/dashboard",
             searchPath := none },
    cookie := some (js "ximgbed_session=YWRtaW46cHc="), json := none, formData := none }

/-! ## Facts about strings and sorting -/

theorem jsLt_irrefl (a : JSString) : jsLt a a = false := by
  induction a with
  | nil => rfl
  | cons x xs ih => simp [jsLt, ih]

theorem jsLt_trans : ∀ a b c : JSString, jsLt a b = true → jsLt b c = true → jsLt a c = true
  | [], [], _, h, _ => by simp [jsLt] at h
  | [], _ :: _, [], _, h => by simp [jsLt] at h
  | [], _ :: _, _ :: _, _, _ => by simp [jsLt]
  | _ :: _, [], _, h, _ => by simp [jsLt] at h
  | _ :: _, _ :: _, [], _, h => by simp [jsLt] at h
  | x :: xs, y :: ys, z :: zs, h1, h2 => by
    simp only [jsLt] at h1 h2 ⊢
    by_cases hxy : x < y
    · by_cases hyz : y < z
      · simp [lt_trans hxy hyz]
      · by_cases hzy : z < y
        · simp [hyz, hzy] at h2
        · have : y = z := by omega
          subst this
          simp [hxy]
    · by_cases hyx : y < x
      · simp [hxy, hyx] at h1
      · have hxy2 : x = y := by omega
        subst hxy2
        simp only [hxy, if_false] at h1
        by_cases hxz : x < z
        · simp [hxz]
        · by_cases hzx : z < x
          · simp [hxz, hzx] at h2
          · simp only [hxz, hzx, if_false] at h2 ⊢
            exact jsLt_trans xs ys zs h1 h2

theorem jsLt_total : ∀ a b : JSString, a ≠ b → jsLt a b = true ∨ jsLt b a = true
  | [], [], h => absurd rfl h
  | [], _ :: _, _ => by simp [jsLt]
  | _ :: _, [], _ => by simp [jsLt]
  | x :: xs, y :: ys, h => by
    simp only [jsLt]
    by_cases hxy : x < y
    · simp [hxy]
    · by_cases hyx : y < x
      · simp [hyx]
      · have hxy2 : x = y := by omega
        subst hxy2
        simp only [hxy, if_false]
        exact jsLt_total xs ys (fun e => h (by rw [e]))

theorem jsLt_asymm (a b : JSString) (h : jsLt a b = true) : jsLt b a = false := by
  cases hba : jsLt b a with
  | false => rfl
  | true =>
    have := jsLt_trans a b a h hba
    rw [jsLt_irrefl] at this
    exact absurd this (by simp)

theorem insertSorted_perm {α : Type} (cmp : α → α → Int) (x : α) (l : List α) :
    (insertSorted cmp x l).Perm (x :: l) := by
  induction l with
  | nil => exact List.Perm.refl _
  | cons y ys ih =>
    simp only [insertSorted]
    split
    · exact List.Perm.refl _
    · exact (List.Perm.cons y ih).trans (List.Perm.swap x y ys)

theorem jsSort_perm {α : Type} (cmp : α → α → Int) (l : List α) : (jsSort cmp l).Perm l := by
  induction l with
  | nil => exact List.Perm.refl _
  | cons x xs ih => exact (insertSorted_perm cmp x _).trans (List.Perm.cons x ih)

theorem insertSorted_pairwise {α : Type} (cmp : α → α → Int) (S : α → Prop)
    (htr : ∀ a b c, S a → S b → S c → cmp a b ≤ 0 → cmp b c ≤ 0 → cmp a c ≤ 0)
    (x : α) (l : List α) (hx : S x) (hl : ∀ a ∈ l, S a)
    (htot : ∀ a ∈ l, cmp x a ≤ 0 ∨ cmp a x ≤ 0)
    (hp : l.Pairwise (fun a b => cmp a b ≤ 0)) :
    (insertSorted cmp x l).Pairwise (fun a b => cmp a b ≤ 0) := by
  induction l with
  | nil => simp [insertSorted]
  | cons y ys ih =>
    have hy : S y := hl y (List.mem_cons_self _ _)
    have hys : ∀ a ∈ ys, S a := fun a ha => hl a (List.mem_cons_of_mem _ ha)
    rw [List.pairwise_cons] at hp
    simp only [insertSorted]
    split
    · rename_i hxy
      refine List.Pairwise.cons ?_ (List.Pairwise.cons hp.1 hp.2)
      intro z hz
      rcases List.mem_cons.1 hz with rfl | hz
      · exact hxy
      · exact htr x y z hx hy (hys z hz) hxy (hp.1 z hz)
    · rename_i hxy
      have hyx : cmp y x ≤ 0 := by
        rcases htot y (List.mem_cons_self _ _) with h | h
        · exact absurd h hxy
        · exact h
      refine List.Pairwise.cons ?_ (ih hys (fun a ha => htot a (List.mem_cons_of_mem _ ha)) hp.2)
      intro z hz
      rcases List.mem_cons.1 ((insertSorted_perm cmp x ys).mem_iff.1 hz) with rfl | hz
      · exact hyx
      · exact hp.1 z hz

/-- For a comparator that is transitive on the elements and decides every pair
of positions one way or the other, `sort` returns a list in comparator order. -/
theorem jsSort_pairwise {α : Type} (cmp : α → α → Int) (S : α → Prop)
    (htr : ∀ a b c, S a → S b → S c → cmp a b ≤ 0 → cmp b c ≤ 0 → cmp a c ≤ 0)
    (l : List α) (hl : ∀ a ∈ l, S a)
    (htot : l.Pairwise (fun a b => cmp a b ≤ 0 ∨ cmp b a ≤ 0)) :
    (jsSort cmp l).Pairwise (fun a b => cmp a b ≤ 0) := by
  induction l with
  | nil => simp [jsSort]
  | cons x xs ih =>
    rw [List.pairwise_cons] at htot
    have hxs : ∀ a ∈ xs, S a := fun a ha => hl a (List.mem_cons_of_mem _ ha)
    simp only [jsSort]
    refine insertSorted_pairwise cmp S htr x _ (hl x (List.mem_cons_self _ _)) ?_ ?_ (ih hxs htot.2)
    · intro a ha
      exact hxs a ((jsSort_perm cmp xs).mem_iff.1 ha)
    · intro a ha
      exact htot.1 a ((jsSort_perm cmp xs).mem_iff.1 ha)

theorem codeUnitCompare_le (a b : JSString) : codeUnitCompare a b ≤ 0 ↔ jsLt b a = false := by
  unfold codeUnitCompare
  cases hab : jsLt a b with
  | true => simp [jsLt_asymm a b hab]
  | false => cases hba : jsLt b a <;> simp

theorem codeUnitCompare_total (a b : JSString) :
    codeUnitCompare a b ≤ 0 ∨ codeUnitCompare b a ≤ 0 := by
  rw [codeUnitCompare_le, codeUnitCompare_le]
  cases hba : jsLt b a with
  | false => exact Or.inl rfl
  | true => exact Or.inr (jsLt_asymm b a hba)

theorem codeUnitCompare_trans (a b c : JSString) (hab : codeUnitCompare a b ≤ 0)
    (hbc : codeUnitCompare b c ≤ 0) : codeUnitCompare a c ≤ 0 := by
  rw [codeUnitCompare_le] at *
  cases hca : jsLt c a with
  | false => rfl
  | true =>
    by_cases he : a = b
    · subst he
      rw [hca] at hbc
      exact absurd hbc (by simp)
    · rcases jsLt_total a b he with h | h
      · rw [jsLt_trans c a b hca h] at hbc
        exact absurd hbc (by simp)
      · rw [h] at hab
        exact absurd hab (by simp)

/-! ## Directory listing -/

theorem compareItems_trans (lc : JSString → JSString → Int)
    (hlc : ∀ a b c, lc a b ≤ 0 → lc b c ≤ 0 → lc a c ≤ 0) (a b c : ContentItem)
    (ha : a.type = js "dir" ∨ a.type = js "file") (hb : b.type = js "dir" ∨ b.type = js "file")
    (hc : c.type = js "dir" ∨ c.type = js "file")
    (hab : GitHubService.compareItems lc a b ≤ 0) (hbc : GitHubService.compareItems lc b c ≤ 0) : GitHubService.compareItems lc a c ≤ 0 := by
  have hne : js "dir" ≠ js "file" := by decide
  have hne2 : js "file" ≠ js "dir" := by decide
  unfold GitHubService.compareItems at *
  rcases ha with ha | ha <;> rcases hb with hb | hb <;> rcases hc with hc | hc <;>
    simp only [ha, hb, hc, hne, hne2, if_true, if_false] at hab hbc ⊢ <;>
    first
      | exact hlc _ _ _ hab hbc
      | omega

theorem compareItems_total (lc : JSString → JSString → Int)
    (hlc : ∀ a b, lc a b ≤ 0 ∨ lc b a ≤ 0) (a b : ContentItem)
    (ha : a.type = js "dir" ∨ a.type = js "file") (hb : b.type = js "dir" ∨ b.type = js "file") :
    GitHubService.compareItems lc a b ≤ 0 ∨ GitHubService.compareItems lc b a ≤ 0 := by
  have hne : js "dir" ≠ js "file" := by decide
  have hne2 : js "file" ≠ js "dir" := by decide
  unfold GitHubService.compareItems
  rcases ha with ha | ha <;> rcases hb with hb | hb <;>
    simp only [ha, hb, hne, hne2, if_true, if_false] <;>
    first
      | exact hlc _ _
      | omega

theorem sorted_split (lc : JSString → JSString → Int) (l : List ContentItem)
    (hS : ∀ a ∈ l, a.type = js "dir" ∨ a.type = js "file")
    (hp : l.Pairwise (fun a b => GitHubService.compareItems lc a b ≤ 0)) :
    ∃ dirs files, l = dirs ++ files ∧ (∀ d ∈ dirs, d.type = js "dir") ∧
      (∀ f ∈ files, f.type = js "file") ∧
      dirs.Pairwise (fun a b => lc a.name b.name ≤ 0) ∧
      files.Pairwise (fun a b => lc a.name b.name ≤ 0) := by
  have hne : js "dir" ≠ js "file" := by decide
  have hne2 : js "file" ≠ js "dir" := by decide
  induction l with
  | nil => exact ⟨[], [], rfl, by simp, by simp, List.Pairwise.nil, List.Pairwise.nil⟩
  | cons x xs ih =>
    have hxs : ∀ a ∈ xs, a.type = js "dir" ∨ a.type = js "file" :=
      fun a ha => hS a (List.mem_cons_of_mem _ ha)
    have hp0 := hp
    rw [List.pairwise_cons] at hp
    rcases hS x (List.mem_cons_self _ _) with hx | hx
    · obtain ⟨dirs, files, he, hd, hf, hpd, hpf⟩ := ih hxs hp.2
      refine ⟨x :: dirs, files, by rw [he]; rfl, ?_, hf, ?_, hpf⟩
      · intro d hd2
        rcases List.mem_cons.1 hd2 with rfl | hd2
        · exact hx
        · exact hd d hd2
      · refine List.Pairwise.cons ?_ hpd
        intro d hd2
        have hmem : d ∈ xs := by rw [he]; exact List.mem_append_left _ hd2
        have := hp.1 d hmem
        unfold GitHubService.compareItems at this
        simpa [hx, hd d hd2] using this
    · have hall : ∀ a ∈ x :: xs, a.type = js "file" := by
        intro a ha
        rcases List.mem_cons.1 ha with rfl | ha
        · exact hx
        · rcases hxs a ha with h | h
          · have := hp.1 a ha
            unfold GitHubService.compareItems at this
            simp [hx, h, hne2] at this
          · exact h
      refine ⟨[], x :: xs, rfl, by simp, hall, List.Pairwise.nil, ?_⟩
      refine List.Pairwise.imp_of_mem ?_ hp0
      intro a b ha hb hab
      unfold GitHubService.compareItems at hab
      simpa [hall a ha, hall b hb] using hab

theorem listPath_array (gh : GitHubService) (P : Platform) (path : JSString) (w : World)
    (res : FetchResp) (data : List ContentItem)
    (hfetch : P.fetch w.log (gh.contentsRequest path) = some res)
    (hok : res.ok = true) (hjson : res.json = some (.array data)) :
    gh.listPath P path w = (.ok (jsSort (GitHubService.compareItems P.localeCompare) data),
      { w with log := w.log ++ [Effect.fetch (gh.contentsRequest path)] }) := by
  simp [GitHubService.listPath, doFetch, hfetch, hok, hjson]


/-- C1: when the contents call succeeds with an array whose entries all have
type `dir` or `file`, `listPath` returns a rearrangement of that array made of
the `dir` entries followed by the `file` entries, each group in ascending
order of name under the collation of `localeCompare` (any collation that is
total and transitive). -/
theorem listPath_sorted (gh : GitHubService) (P : Platform) (path : JSString) (w : World)
    (res : FetchResp) (data : List ContentItem)
    (htotal : ∀ a b, P.localeCompare a b ≤ 0 ∨ P.localeCompare b a ≤ 0)
    (htrans : ∀ a b c, P.localeCompare a b ≤ 0 → P.localeCompare b c ≤ 0 →
      P.localeCompare a c ≤ 0)
    (hfetch : P.fetch w.log (gh.contentsRequest path) = some res)
    (hok : res.ok = true) (hjson : res.json = some (.array data))
    (htypes : ∀ i ∈ data, i.type = js "dir" ∨ i.type = js "file") :
    ∃ dirs files, (gh.listPath P path w).1 = .ok (dirs ++ files) ∧
      (dirs ++ files).Perm data ∧
      (∀ d ∈ dirs, d.type = js "dir") ∧ (∀ f ∈ files, f.type = js "file") ∧
      dirs.Pairwise (fun a b => P.localeCompare a.name b.name ≤ 0) ∧
      files.Pairwise (fun a b => P.localeCompare a.name b.name ≤ 0) := by
  have hperm := jsSort_perm (GitHubService.compareItems P.localeCompare) data
  have hsorted := jsSort_pairwise (GitHubService.compareItems P.localeCompare)
    (fun a => a.type = js "dir" ∨ a.type = js "file")
    (compareItems_trans P.localeCompare htrans) data htypes
    (List.pairwise_of_forall_mem_list
      (fun a ha b hb => compareItems_total P.localeCompare htotal a b (htypes a ha) (htypes b hb)))
  obtain ⟨dirs, files, he, hd, hf, hpd, hpf⟩ := sorted_split P.localeCompare _
    (fun a ha => htypes a (hperm.mem_iff.1 ha)) hsorted
  refine ⟨dirs, files, ?_, he ▸ hperm, hd, hf, hpd, hpf⟩
  rw [listPath_array gh P path w res data hfetch hok hjson, he]

/-- C1 at the listing `[b.png (file), A (dir), a.png (file), Z (dir)]`: the
result is `[A, Z, a.png, b.png]`. -/
theorem listPath_sorted_witness :
    (∃ dirs files,
      (sampleService.listPath (constPlatform ⟨200, [], some (.array sampleListing)⟩) [] emptyWorld).1
        = .ok (dirs ++ files) ∧
      (dirs ++ files).Perm sampleListing ∧
      (∀ d ∈ dirs, d.type = js "dir") ∧ (∀ f ∈ files, f.type = js "file") ∧
      dirs.Pairwise (fun a b => codeUnitCompare a.name b.name ≤ 0) ∧
      files.Pairwise (fun a b => codeUnitCompare a.name b.name ≤ 0)) ∧
    (sampleService.listPath (constPlatform ⟨200, [], some (.array sampleListing)⟩) [] emptyWorld).1
      = .ok [sampleItem "A" "dir", sampleItem "Z" "dir", sampleItem "a.png" "file",
             sampleItem "b.png" "file"] :=
  ⟨listPath_sorted sampleService (constPlatform ⟨200, [], some (.array sampleListing)⟩) []
    emptyWorld ⟨200, [], some (.array sampleListing)⟩ sampleListing
    codeUnitCompare_total codeUnitCompare_trans rfl (by decide) rfl (by decide), by rfl⟩

section Dashboard
open AdminController

/-! ## Dashboard sampling -/

theorem comparePaths_le (a b : Asset) : comparePaths a b ≤ 0 ↔ jsGt a.path b.path = true := by
  unfold comparePaths
  cases h : jsGt a.path b.path <;> simp

/-- The dashboard sort returns the descending arrangement of a list of assets
with pairwise distinct paths. -/
theorem sort_comparePaths (allImages : List Asset)
    (hdistinct : allImages.Pairwise (fun a b => a.path ≠ b.path)) :
    (jsSort comparePaths allImages).Perm allImages ∧
    (jsSort comparePaths allImages).Pairwise (fun a b => jsGt a.path b.path = true) := by
  refine ⟨jsSort_perm _ _, ?_⟩
  have h := jsSort_pairwise comparePaths (fun _ => True)
    (fun a b c _ _ _ hab hbc => by
      rw [comparePaths_le] at *
      exact jsLt_trans _ _ _ hbc hab)
    allImages (fun _ _ => trivial)
    (hdistinct.imp (fun {a b} hne => by
      rw [comparePaths_le, comparePaths_le]
      rcases jsLt_total a.path b.path hne with h | h
      · exact Or.inr h
      · exact Or.inl h))
  exact h.imp (fun {a b} hab => (comparePaths_le a b).1 hab)

/-- A list in strictly descending order of path has no repeated element. -/
theorem nodup_of_descending (l : List Asset)
    (h : l.Pairwise (fun a b => jsGt a.path b.path = true)) : l.Nodup :=
  h.imp (fun {a b} hab he => by
    subst he
    unfold jsGt at hab
    rw [jsLt_irrefl] at hab
    exact absurd hab (by simp))

/-- Two descending arrangements of the same assets are equal. -/
theorem descending_unique (l₁ l₂ : List Asset) (hp : l₁.Perm l₂)
    (h₁ : l₁.Pairwise (fun a b => jsGt a.path b.path = true))
    (h₂ : l₂.Pairwise (fun a b => jsGt a.path b.path = true)) : l₁ = l₂ :=
  List.Perm.eq_of_sorted (fun a b _ _ hab hba => by
    unfold jsGt at hab hba
    rw [jsLt_asymm _ _ hab] at hba
    exact absurd hba (by simp)) h₁ h₂ hp

theorem perm_cons_eraseIdx {α : Type} : ∀ (l : List α) (i : Nat) (a : α),
    l.get? i = some a → l.Perm (a :: l.eraseIdx i)
  | [], _, _, h => by simp at h
  | x :: xs, 0, a, h => by
    simp at h
    subst h
    exact List.Perm.refl _
  | x :: xs, i + 1, a, h => by
    simp at h
    have ih := perm_cons_eraseIdx xs i a (by simpa using h)
    exact (List.Perm.cons x ih).trans (List.Perm.swap a x _)

/-- The sampling loop with in-range draws: `left` elements are moved from the
pool to the result, one at a time. -/
theorem sampleLoop_spec (draw : Nat → Nat → Nat) (hdraw : ∀ i n, 0 < n → draw i n < n) :
    ∀ (left i : Nat) (others acc : List Asset), left ≤ others.length →
      ∃ picked rest, sampleLoop draw left i others (acc.map some) = (acc ++ picked).map some ∧
        picked.length = left ∧ (picked ++ rest).Perm others
  | 0, _, others, acc, _ => ⟨[], others, by simp [sampleLoop], rfl, List.Perm.refl _⟩
  | left + 1, i, others, acc, hle => by
    have hpos : 0 < others.length := by omega
    have hidx := hdraw i others.length hpos
    obtain ⟨a, ha⟩ : ∃ a, others.get? (draw i others.length) = some a :=
      ⟨others.get ⟨_, hidx⟩, List.get?_eq_get hidx⟩
    have hlen : left ≤ (others.eraseIdx (draw i others.length)).length := by
      rw [List.length_eraseIdx_of_lt hidx]
      omega
    obtain ⟨picked, rest, hrun, hlp, hperm⟩ :=
      sampleLoop_spec draw hdraw left (i + 1) (others.eraseIdx (draw i others.length))
        (acc ++ [a]) hlen
    refine ⟨a :: picked, rest, ?_, by simp [hlp], ?_⟩
    · simp only [sampleLoop, ha]
      have : acc.map some ++ [some a] = (acc ++ [a]).map some := by simp
      rw [this, hrun]
      simp
    · exact (List.Perm.cons a hperm).trans (perm_cons_eraseIdx others _ a ha).symm


theorem sampleAssets_distinct : sampleAssets.Pairwise (fun a b => a.path ≠ b.path) := by
  decide

/-- C3: for assets with pairwise distinct paths, `recent` has `min(20, N)`
entries and is the first 20 entries of the arrangement of the assets in
descending order of path; that arrangement exists and is unique. -/
theorem dashboard_recent (draw : Nat → Nat → Nat) (allImages : List Asset)
    (hdistinct : allImages.Pairwise (fun a b => a.path ≠ b.path)) :
    (dashboard draw allImages).1.length = min 20 allImages.length ∧
    (∃ sorted : List Asset, sorted.Perm allImages ∧
      sorted.Pairwise (fun a b => jsGt a.path b.path = true)) ∧
    ∀ sorted : List Asset, sorted.Perm allImages →
      sorted.Pairwise (fun a b => jsGt a.path b.path = true) →
      (dashboard draw allImages).1 = sorted.take 20 := by
  obtain ⟨hperm, hdesc⟩ := sort_comparePaths allImages hdistinct
  refine ⟨?_, ⟨_, hperm, hdesc⟩, ?_⟩
  · simp [dashboard, hperm.length_eq]
  · intro sorted hp hs
    have : jsSort comparePaths allImages = sorted :=
      descending_unique _ _ (hperm.trans hp.symm) hdesc hs
    simp [dashboard, this]

/-- C2: for assets with pairwise distinct paths and draws that fall inside the
pool, `random` consists of `min(20, N - 20)` assets (no `undefined` entry),
where the pool is the descending arrangement minus its first 20; the picked
assets together with the assets left over are a rearrangement of the pool, so
each comes from the pool and none is taken twice; the picked assets are
pairwise different and none of them is in `recent`. -/
theorem dashboard_random (draw : Nat → Nat → Nat) (allImages : List Asset)
    (hdistinct : allImages.Pairwise (fun a b => a.path ≠ b.path))
    (hdraw : ∀ i n, 0 < n → draw i n < n) :
    ∃ sorted picked rest : List Asset,
      sorted.Perm allImages ∧ sorted.Pairwise (fun a b => jsGt a.path b.path = true) ∧
      (dashboard draw allImages).2 = picked.map some ∧
      picked.length = min 20 (allImages.length - 20) ∧
      (picked ++ rest).Perm (sorted.drop 20) ∧
      (∀ a ∈ picked, a ∈ sorted.drop 20) ∧
      picked.Pairwise (fun a b => a.path ≠ b.path) ∧
      ∀ a ∈ picked, a ∉ (dashboard draw allImages).1 := by
  obtain ⟨hperm, hdesc⟩ := sort_comparePaths allImages hdistinct
  obtain ⟨picked, rest, hrun, hlen, hpr⟩ := sampleLoop_spec draw hdraw
    (min 20 ((jsSort comparePaths allImages).drop 20).length) 0
    ((jsSort comparePaths allImages).drop 20) [] (Nat.min_le_right _ _)
  have hmem : ∀ a ∈ picked, a ∈ (jsSort comparePaths allImages).drop 20 :=
    fun a ha => hpr.mem_iff.1 (List.mem_append_left _ ha)
  have hnodup : (jsSort comparePaths allImages).Nodup := nodup_of_descending _ hdesc
  have hsplit : ((jsSort comparePaths allImages).take 20 ++
      (jsSort comparePaths allImages).drop 20).Nodup := by
    rw [List.take_append_drop]; exact hnodup
  have hdropdesc : ((jsSort comparePaths allImages).drop 20).Pairwise
      (fun a b => a.path ≠ b.path) :=
    (hdesc.sublist (List.drop_sublist _ _)).imp (fun {a b} hab he => by
      unfold jsGt at hab
      rw [he, jsLt_irrefl] at hab
      exact absurd hab (by simp))
  refine ⟨_, picked, rest, hperm, hdesc, ?_, ?_, hpr, hmem, ?_, ?_⟩
  · simpa [dashboard] using hrun
  · rw [hlen, List.length_drop, hperm.length_eq]
  · have h1 : (picked ++ rest).Pairwise (fun a b => a.path ≠ b.path) :=
      hdropdesc.perm hpr.symm (fun {a b} h => Ne.symm h)
    exact h1.sublist (List.sublist_append_left _ _)
  · intro a ha hrec
    have hrec2 : a ∈ (jsSort comparePaths allImages).take 20 := by simpa [dashboard] using hrec
    exact (List.nodup_append.1 hsplit).2.2 hrec2 (hmem a ha)

theorem sampleDraw_lt (i n : Nat) (h : 0 < n) : sampleDraw i n < n := Nat.mod_lt _ h

/-- C3 at 45 assets: `recent` has 20 entries, the top 20 by descending path. -/
theorem dashboard_recent_witness :
    sampleAssets.Pairwise (fun a b => a.path ≠ b.path) ∧
    (AdminController.dashboard sampleDraw sampleAssets).1.length = min 20 sampleAssets.length ∧
    (∃ sorted : List Asset, sorted.Perm sampleAssets ∧
      sorted.Pairwise (fun a b => jsGt a.path b.path = true)) ∧
    ∀ sorted : List Asset, sorted.Perm sampleAssets →
      sorted.Pairwise (fun a b => jsGt a.path b.path = true) →
      (AdminController.dashboard sampleDraw sampleAssets).1 = sorted.take 20 :=
  ⟨sampleAssets_distinct, dashboard_recent sampleDraw sampleAssets sampleAssets_distinct⟩

/-- C2 at 45 assets: `random` has 20 entries drawn from the other 25. -/
theorem dashboard_random_witness :
    ∃ sorted picked rest : List Asset,
      sorted.Perm sampleAssets ∧ sorted.Pairwise (fun a b => jsGt a.path b.path = true) ∧
      (AdminController.dashboard sampleDraw sampleAssets).2 = picked.map some ∧
      picked.length = min 20 (sampleAssets.length - 20) ∧
      (picked ++ rest).Perm (sorted.drop 20) ∧
      (∀ a ∈ picked, a ∈ sorted.drop 20) ∧
      picked.Pairwise (fun a b => a.path ≠ b.path) ∧
      ∀ a ∈ picked, a ∉ (AdminController.dashboard sampleDraw sampleAssets).1 :=
  dashboard_random sampleDraw sampleAssets sampleAssets_distinct sampleDraw_lt

/-- The dashboard endpoint answers with the two lists of `dashboard`. -/
theorem handle_dashboard (P : Platform) (request : Request) (env : Env) (w : World)
    (allImages : List Asset)
    (hauth : checkCookie request env = true)
    (hpath : request.url.pathname = ADMIN_ROUTE ++ js "/api/dashboard")
    (hindex : (GitHubService.getAllFilesCached { token := env.GH_TOKEN, repo := env.GH_REPO } P
      request.url w).1 = .ok allImages) :
    (handle P request env w).1 = .ok (json (.dashboard (dashboard P.random allImages).1
      (dashboard P.random allImages).2) 200 []) := by
  have h1 : ADMIN_ROUTE ++ js "/api/dashboard" ≠ ADMIN_ROUTE ++ js "/login" := by decide
  rcases hgc : GitHubService.getAllFilesCached { token := env.GH_TOKEN, repo := env.GH_REPO } P
    request.url w with ⟨r, w1⟩
  rw [hgc] at hindex
  simp only at hindex
  subst hindex
  unfold handle
  simp only [hpath, hauth, h1, false_and, if_false, if_true, Bool.not_true, hgc,
    Bool.false_eq_true]

end Dashboard

section Endpoints
open AdminController GitHubService

/-! ## Move and delete -/

/-- C4: an authenticated POST to the move endpoint whose body has `newPath`
equal to `oldPath` is answered with the JSON body `{error: "Invalid path"}` and
status 500, and the world is unchanged: nothing was fetched, nothing was
written to the log, so no download, PUT or DELETE was issued. -/
theorem move_same_path_rejected (P : Platform) (request : Request) (env : Env) (w : World)
    (b : JsonBody)
    (hauth : checkCookie request env = true)
    (hmethod : request.method = js "POST")
    (hpath : request.url.pathname = ADMIN_ROUTE ++ js "/api/move")
    (hbody : request.json = some b) (hsame : b.newPath = b.oldPath) :
    handle P request env w = (.ok (json (.error (js "Invalid path")) 500 []), w) := by
  have h1 : ADMIN_ROUTE ++ js "/api/move" ≠ ADMIN_ROUTE ++ js "/login" := by decide
  have h2 : ADMIN_ROUTE ++ js "/api/move" ≠ ADMIN_ROUTE ++ js "/api/dashboard" := by decide
  have h3 : ADMIN_ROUTE ++ js "/api/move" ≠ ADMIN_ROUTE ++ js "/api/browse" := by decide
  have h4 : ADMIN_ROUTE ++ js "/api/move" ≠ ADMIN_ROUTE ++ js "/api/batch_export" := by decide
  unfold handle
  simp only [hpath, hmethod, hauth, hbody, hsame, h1, h2, h3, h4, false_and, if_false, and_self,
    if_true, Bool.not_true, decide_True, Bool.or_true, Bool.false_eq_true]

/-- C4 at a move of `a/x.png` onto itself. -/
theorem move_same_path_rejected_witness :
    AdminController.handle deleteRefused moveSamePath adminEnv emptyWorld =
      (.ok (AdminController.json (.error (js "Invalid path")) 500 []), emptyWorld) :=
  move_same_path_rejected deleteRefused moveSamePath adminEnv emptyWorld
    { oldPath := some (js "a/x.png"), newPath := some (js "a/x.png"), sha := some (js "0"),
      fileUrl := some (js "/51hhh/img_bed/main/a/x.png"), path := none }
    (by decide) rfl rfl rfl rfl

theorem all_map_mod (bytes : List Nat) :
    (bytes.map fun b => b % 256).all (fun c => decide (c ≤ 255)) = true := by
  simp only [List.all_eq_true, List.mem_map, decide_eq_true_eq]
  rintro c ⟨b, _, rfl⟩
  omega

theorem encodeContent_ok (bytes : List Nat) :
    encodeContent bytes = .ok (base64Encode (bytes.map fun b => b % 256)) := by
  unfold encodeContent btoa
  rw [all_map_mod]
  rfl

theorem issued_append (w : World) (es : List Effect) (c : List (JSString × List Asset)) :
    issued w { log := w.log ++ es, cache := c } = es := by
  simp [issued]

/-- C5: when the download of the source succeeds and the PUT of the
destination answers with a non-success status, `moveFile` fails with the error
`Create new file failed`; the calls it issued are exactly the download and the
PUT, none of them a DELETE, and the cache is untouched. -/
theorem moveFile_write_failure (gh : GitHubService) (P : Platform)
    (oldPath newPath sha : Option JSString) (fileUrl : JSString) (w : World)
    (src putRes : FetchResp)
    (hsrc : P.fetch w.log (downloadRequest fileUrl) = some src) (hsrcok : src.ok = true)
    (hput : P.fetch (w.log ++ [Effect.fetch (downloadRequest fileUrl)])
      (gh.putRequest oldPath newPath (base64Encode (src.bytes.map fun b => b % 256))) = some putRes)
    (hputfail : putRes.ok = false) :
    (gh.moveFile P oldPath newPath sha fileUrl w).1 = .error (js "Create new file failed") ∧
    issued w (gh.moveFile P oldPath newPath sha fileUrl w).2 =
      [Effect.fetch (downloadRequest fileUrl),
       Effect.fetch (gh.putRequest oldPath newPath (base64Encode (src.bytes.map fun b => b % 256)))] ∧
    (∀ req, Effect.fetch req ∈ issued w (gh.moveFile P oldPath newPath sha fileUrl w).2 →
      req.method ≠ js "DELETE") ∧
    (gh.moveFile P oldPath newPath sha fileUrl w).2.cache = w.cache := by
  have hrun : gh.moveFile P oldPath newPath sha fileUrl w =
      (.error (js "Create new file failed"),
       { log := w.log ++ [Effect.fetch (downloadRequest fileUrl),
           Effect.fetch (gh.putRequest oldPath newPath
             (base64Encode (src.bytes.map fun b => b % 256)))],
         cache := w.cache }) := by
    simp [moveFile, doFetch, hsrc, hsrcok, encodeContent_ok, hput, hputfail]
  rw [hrun]
  refine ⟨rfl, issued_append _ _ _, ?_, rfl⟩
  intro req hreq
  rw [issued_append] at hreq
  simp only [List.mem_cons, Effect.fetch.injEq, List.mem_singleton, List.not_mem_nil, or_false] at hreq
  rcases hreq with rfl | rfl
  · show js "GET" ≠ js "DELETE"
    decide
  · show js "PUT" ≠ js "DELETE"
    decide

/-- C5 at a move of `a/x.png` to `b/x.png` whose PUT is answered 422. -/
theorem moveFile_write_failure_witness :
    (sampleService.moveFile writeRefused (some (js "a/x.png")) (some (js "b/x.png")) (some (js "0"))
      (js "https://img.example/51hhh/img_bed/main/a/x.png") emptyWorld).1
      = .error (js "Create new file failed") ∧
    issued emptyWorld (sampleService.moveFile writeRefused (some (js "a/x.png")) (some (js "b/x.png"))
      (some (js "0")) (js "https://img.example/51hhh/img_bed/main/a/x.png") emptyWorld).2 =
      [Effect.fetch (downloadRequest (js "https://img.example/51hhh/img_bed/main/a/x.png")),
       Effect.fetch (sampleService.putRequest (some (js "a/x.png")) (some (js "b/x.png"))
         (base64Encode ([137, 80, 78, 71].map fun b => b % 256)))] ∧
    (∀ req, Effect.fetch req ∈ issued emptyWorld (sampleService.moveFile writeRefused
        (some (js "a/x.png")) (some (js "b/x.png")) (some (js "0"))
        (js "https://img.example/51hhh/img_bed/main/a/x.png") emptyWorld).2 →
      req.method ≠ js "DELETE") ∧
    (sampleService.moveFile writeRefused (some (js "a/x.png")) (some (js "b/x.png")) (some (js "0"))
      (js "https://img.example/51hhh/img_bed/main/a/x.png") emptyWorld).2.cache = emptyWorld.cache :=
  moveFile_write_failure sampleService writeRefused (some (js "a/x.png")) (some (js "b/x.png"))
    (some (js "0")) (js "https://img.example/51hhh/img_bed/main/a/x.png") emptyWorld
    ⟨200, [137, 80, 78, 71], none⟩ ⟨422, [], none⟩ (by rfl) (by decide) (by rfl) (by decide)

/-- C6, the code at the failing input: the download and the PUT succeed, the
DELETE of the source is answered 409, and yet `moveFile` completes without an
error and the move endpoint answers `{success: true}` with status 200. -/
theorem move_delete_failure_reported_as_success :
    deleteRefused.fetch [] (sampleService.deleteRequest (some (js "a/x.png")) (some (js "0")))
      = some ⟨409, [], none⟩ ∧
    (⟨409, [], none⟩ : FetchResp).ok = false ∧
    (sampleService.moveFile deleteRefused (some (js "a/x.png")) (some (js "b/x.png")) (some (js "0"))
      (js "https://img.example/51hhh/img_bed/main/a/x.png") emptyWorld).1 = .ok () ∧
    (handle deleteRefused moveRequest adminEnv emptyWorld).1 = .ok (json .success 200 []) := by
  refine ⟨by rfl, by decide, by rfl, by rfl⟩

/-- C7, the code at the failing input: the DELETE is answered 409, and yet
`deleteFile` completes without an error and the delete endpoint answers
`{success: true}` with status 200. -/
theorem delete_failure_reported_as_success :
    deleteRefused.fetch [] (sampleService.deleteRequest (some (js "a/x.png")) (some (js "0")))
      = some ⟨409, [], none⟩ ∧
    (⟨409, [], none⟩ : FetchResp).ok = false ∧
    (sampleService.deleteFile deleteRefused (some (js "a/x.png")) (some (js "0")) emptyWorld).1 = .ok () ∧
    (handle deleteRefused deleteRequestSample adminEnv emptyWorld).1 = .ok (json .success 200 []) := by
  refine ⟨by rfl, by decide, by rfl, by rfl⟩

/-- Whatever status the DELETE call returns, `deleteFile` completes normally. -/
theorem deleteFile_ignores_status (gh : GitHubService) (P : Platform) (path sha : Option JSString)
    (w : World) (res : FetchResp) (h : P.fetch w.log (gh.deleteRequest path sha) = some res) :
    (gh.deleteFile P path sha w).1 = .ok () := by
  simp [deleteFile, doFetch, h]

/-! ## Paths that are not directories -/

/-- C8 fails as stated: for a path whose contents call succeeds with a single
object, `listPath` returns the empty list and no error. -/
theorem listPath_file_object_no_error :
    (fileObjectPlatform.fetch emptyWorld.log (sampleService.contentsRequest (js "a/x.png"))
        = some ⟨200, [], some (.object none)⟩) ∧
    (⟨200, [], some (.object none)⟩ : FetchResp).ok = true ∧
    (sampleService.listPath fileObjectPlatform (js "a/x.png") emptyWorld).1 = .ok [] ∧
    ¬ ∃ e, (sampleService.listPath fileObjectPlatform (js "a/x.png") emptyWorld).1 = .error e := by
  refine ⟨rfl, by decide, by rfl, ?_⟩
  rintro ⟨e, he⟩
  have h : (sampleService.listPath fileObjectPlatform (js "a/x.png") emptyWorld).1 = .ok [] := by rfl
  rw [h] at he
  cases he

/-- C8 as amended: when the contents call succeeds and its JSON is not an
array, `listPath` returns the empty list, after that one call. -/
theorem listPath_non_array (gh : GitHubService) (P : Platform) (path : JSString) (w : World)
    (res : FetchResp) (tree : Option (List TreeEntry))
    (hfetch : P.fetch w.log (gh.contentsRequest path) = some res)
    (hok : res.ok = true) (hjson : res.json = some (.object tree)) :
    (gh.listPath P path w).1 = .ok [] ∧
    issued w (gh.listPath P path w).2 = [Effect.fetch (gh.contentsRequest path)] := by
  have hrun : gh.listPath P path w =
      (.ok [], { log := w.log ++ [Effect.fetch (gh.contentsRequest path)], cache := w.cache }) := by
    simp [listPath, doFetch, hfetch, hok, hjson]
  rw [hrun]
  exact ⟨rfl, issued_append _ _ _⟩

/-- C8 as amended, at the path of a file. -/
theorem listPath_non_array_witness :
    (sampleService.listPath fileObjectPlatform (js "a/x.png") emptyWorld).1 = .ok [] ∧
    issued emptyWorld (sampleService.listPath fileObjectPlatform (js "a/x.png") emptyWorld).2 =
      [Effect.fetch (sampleService.contentsRequest (js "a/x.png"))] :=
  listPath_non_array sampleService fileObjectPlatform (js "a/x.png") emptyWorld
    ⟨200, [], some (.object none)⟩ none rfl (by decide) rfl

/-! ## Session gate -/

theorem includes_login : includes (ADMIN_ROUTE ++ js "/login") (js "/api/") = false := by decide

/-- A request whose pathname contains `/api/` and that `checkCookie` rejects is
answered with status 401 and the JSON body `{error: "Unauthorized"}`, and the
world is unchanged: no upstream call and no cache operation. -/
theorem unauthorized_api (P : Platform) (request : Request) (env : Env) (w : World)
    (hapi : includes request.url.pathname (js "/api/") = true)
    (hno : checkCookie request env = false) :
    handle P request env w = (.ok (json (.error (js "Unauthorized")) 401 []), w) := by
  have hlogin : request.url.pathname ≠ ADMIN_ROUTE ++ js "/login" := by
    intro h
    rw [h, includes_login] at hapi
    exact absurd hapi (by simp)
  unfold handle
  simp only [hlogin, hno, hapi, false_and, if_false, if_true, Bool.not_false]

/-- A request without a Cookie header carries no valid session. -/
theorem checkCookie_no_header (request : Request) (env : Env) (h : request.cookie = none) :
    checkCookie request env = false := by
  simp [checkCookie, h]

/-- A Cookie header without an `imgbed_session` value carries no valid session. -/
theorem checkCookie_no_session (request : Request) (env : Env) (c : JSString)
    (h : request.cookie = some c) (hm : matchCookie c = none) :
    checkCookie request env = false := by
  simp [checkCookie, h, hm]

/-- A token that does not decode, or whose first two colon-separated pieces
are not the configured user and password, carries no valid session. -/
theorem checkCookie_bad_token (request : Request) (env : Env) (c tok : JSString)
    (h : request.cookie = some c) (hm : matchCookie c = some tok)
    (hbad : ∀ d, atob tok = .ok d →
      ¬ ((split 58 d).get? 0 = env.ADMIN_USER ∧ (split 58 d).get? 1 = env.ADMIN_PASS)) :
    checkCookie request env = false := by
  unfold checkCookie
  rw [h]
  by_cases hc : c.isEmpty = true
  · simp [hc]
  · simp only [hc, hm]
    cases hd : atob tok with
    | error e => simp
    | ok d =>
      have hb := hbad d hd
      simp only [List.get?_eq_getElem?] at hb
      simp only [List.get?_eq_getElem?, Bool.false_eq_true, if_false]
      by_cases h0 : (split 58 d)[0]? = env.ADMIN_USER
      · have h1 : ¬ (split 58 d)[1]? = env.ADMIN_PASS := fun e => hb ⟨h0, e⟩
        rw [decide_eq_false h1, Bool.and_false]
      · rw [decide_eq_false h0, Bool.false_and]

/-- The 401 answer at a delete request without a Cookie header. -/
theorem unauthorized_api_witness :
    handle deleteRefused anonymousRequest adminEnv emptyWorld =
      (.ok (json (.error (js "Unauthorized")) 401 []), emptyWorld) :=
  unauthorized_api deleteRefused anonymousRequest adminEnv emptyWorld (by decide) (by decide)

/-- C9, the code at two failing inputs.  The token `YWRtaW46cHc6eA==` decodes to
`admin:pw:x`, which is not the credential pair `admin:pw`, yet `checkCookie`
accepts it and the dashboard endpoint answers 200 after a cache lookup, an
upstream fetch and a cache store.  A Cookie header whose only cookie is named
`ximgbed_session` is accepted as well, with the same answer. -/
theorem session_check_accepts_other_tokens :
    atob (js "YWRtaW46cHc6eA==") = .ok (js "admin:pw:x") ∧
    checkCookie extraFieldSession adminEnv = true ∧
    (handle treePlatform extraFieldSession adminEnv emptyWorld).1 =
      .ok (json (.dashboard
        [⟨js "b/y.JPG", js "/51hhh/img_bed/main/b/y.JPG"⟩,
         ⟨js "a/z.webp", js "/51hhh/img_bed/main/a/z.webp"⟩,
         ⟨js "a/x.png", js "/51hhh/img_bed/main/a/x.png"⟩] []) 200 []) ∧
    issued emptyWorld (handle treePlatform extraFieldSession adminEnv emptyWorld).2 =
      [Effect.cacheMatch (cacheKey extraFieldSession.url),
       Effect.fetch sampleService.treeRequest,
       Effect.cachePut (cacheKey extraFieldSession.url) sampleIndex] ∧
    checkCookie otherCookieSession adminEnv = true ∧
    (handle treePlatform otherCookieSession adminEnv emptyWorld).1 =
      (handle treePlatform extraFieldSession adminEnv emptyWorld).1 := by
  refine ⟨by rfl, by decide, by rfl, by decide, by decide, by rfl⟩

/-! ## Batch export -/

theorem startsWith_iff : ∀ (s p : JSString), startsWith s p = true ↔ p <+: s
  | _, [] => by simp [startsWith]
  | [], _ :: _ => by simp [startsWith]
  | c :: cs, q :: qs => by
    simp only [startsWith]
    by_cases h : c = q
    · subst h
      simp [startsWith_iff cs qs, List.cons_prefix_cons]
    · simp [h, List.cons_prefix_cons]
      intro h2
      exact absurd h2.symm h

/-- C10: for an authenticated batch-export request over the index `allImages`,
the answer is `{urls}` with the urls, in index order, of a sublist `kept` of
the index that holds exactly the assets whose path starts with the requested
string, each as often as in the index; with the empty string (or no `path`
parameter) `kept` is the whole index. -/
theorem batch_export_urls (P : Platform) (request : Request) (env : Env) (w : World)
    (allImages : List Asset)
    (hauth : checkCookie request env = true)
    (hpath : request.url.pathname = ADMIN_ROUTE ++ js "/api/batch_export")
    (hindex : (GitHubService.getAllFilesCached { token := env.GH_TOKEN, repo := env.GH_REPO } P
      request.url w).1 = .ok allImages) :
    ∃ kept : List Asset,
      (handle P request env w).1 = .ok (json (.urls (kept.map fun a => a.url)) 200 []) ∧
      kept.Sublist allImages ∧
      (∀ a, a ∈ kept ↔ a ∈ allImages ∧ orEmpty request.url.searchPath <+: a.path) ∧
      (∀ a, orEmpty request.url.searchPath <+: a.path → kept.count a = allImages.count a) ∧
      (orEmpty request.url.searchPath = [] → kept = allImages) := by
  have h1 : ADMIN_ROUTE ++ js "/api/batch_export" ≠ ADMIN_ROUTE ++ js "/login" := by decide
  have h2 : ADMIN_ROUTE ++ js "/api/batch_export" ≠ ADMIN_ROUTE ++ js "/api/dashboard" := by decide
  have h3 : ADMIN_ROUTE ++ js "/api/batch_export" ≠ ADMIN_ROUTE ++ js "/api/browse" := by decide
  refine ⟨allImages.filter fun img => startsWith img.path (orEmpty request.url.searchPath),
    ?_, List.filter_sublist _, ?_, ?_, ?_⟩
  · rcases hgc : GitHubService.getAllFilesCached { token := env.GH_TOKEN, repo := env.GH_REPO } P
      request.url w with ⟨r, w1⟩
    rw [hgc] at hindex
    simp only at hindex
    subst hindex
    unfold handle
    simp only [hpath, hauth, h1, h2, h3, false_and, if_false, if_true, Bool.not_true, hgc,
      Bool.false_eq_true, batchExport]
  · intro a
    rw [List.mem_filter, startsWith_iff]
  · intro a ha
    exact List.count_filter (by simpa [startsWith_iff] using ha)
  · intro he
    rw [he]
    exact List.filter_eq_self.2 (fun a _ => by simp [startsWith_iff])

/-- C10 at the sample tree and the string `a/`. -/
theorem batch_export_urls_witness :
    ∃ kept : List Asset,
      (handle treePlatform exportRequest adminEnv emptyWorld).1
        = .ok (json (.urls (kept.map fun a => a.url)) 200 []) ∧
      kept.Sublist sampleIndex ∧
      (∀ a, a ∈ kept ↔ a ∈ sampleIndex ∧ orEmpty exportRequest.url.searchPath <+: a.path) ∧
      (∀ a, orEmpty exportRequest.url.searchPath <+: a.path → kept.count a = sampleIndex.count a) ∧
      (orEmpty exportRequest.url.searchPath = [] → kept = sampleIndex) :=
  batch_export_urls treePlatform exportRequest adminEnv emptyWorld sampleIndex (by decide) (by decide)
    (by rfl)

end Endpoints

section Index
open AdminController GitHubService

/-! ## Tree index cache -/

/-- C11 fails as stated: two requests on different origins get different
cache keys. -/
theorem cacheKey_differs_across_origins :
    cacheKey { origin := js "https://a.example", pathname := js "/admin/api/dashboard",
               searchPath := none } ≠
    cacheKey { origin := js "https://b.example", pathname := js "/admin/api/dashboard",
               searchPath := none } := by
  decide

/-- C11 as amended: two request URLs with the same origin get the same cache
key, whatever their path and query; the key is the origin followed by
`/cache-key-tree-v7`. -/
theorem cacheKey_same_origin (u₁ u₂ : URL) (h : u₁.origin = u₂.origin) :
    cacheKey u₁ = cacheKey u₂ ∧ cacheKey u₁ = u₁.origin ++ js "/cache-key-tree-v7" := by
  unfold cacheKey
  rw [h]
  exact ⟨rfl, rfl⟩

/-- C11 as amended, at a dashboard and a batch-export URL of one origin. -/
theorem cacheKey_same_origin_witness :
    cacheKey { origin := js "https://a.example", pathname := js "/admin/api/dashboard",
               searchPath := none } =
    cacheKey { origin := js "https://a.example", pathname := js "/admin/api/batch_export",
               searchPath := some (js "a/") } ∧
    cacheKey { origin := js "https://a.example", pathname := js "/admin/api/dashboard",
               searchPath := none } = js "https://a.example" ++ js "/cache-key-tree-v7" :=
  cacheKey_same_origin _ _ rfl

theorem lookup_cons_self (key : JSString) (v : List Asset) (c : List (JSString × List Asset)) :
    List.lookup key ((key, v) :: c) = some v := by
  simp [List.lookup]

/-- The tree index built from a snapshot. -/
theorem getAllFilesCached_miss (gh : GitHubService) (P : Platform) (u : URL) (w : World)
    (res : FetchResp) (tree : List TreeEntry)
    (hmiss : w.cache.lookup (cacheKey u) = none)
    (hfetch : P.fetch (w.log ++ [Effect.cacheMatch (cacheKey u)]) gh.treeRequest = some res)
    (hok : res.ok = true) (hjson : res.json = some (.object (some tree))) :
    gh.getAllFilesCached P u w =
      (.ok ((tree.filter fun i => decide (i.type = js "blob") &&
              testExtension indexExtensions i.path).map
            fun i => { path := i.path, url := PROXY_PREFIX ++ js "/" ++ i.path }),
       { log := w.log ++ [Effect.cacheMatch (cacheKey u), Effect.fetch gh.treeRequest,
           Effect.cachePut (cacheKey u) ((tree.filter fun i => decide (i.type = js "blob") &&
              testExtension indexExtensions i.path).map
            fun i => { path := i.path, url := PROXY_PREFIX ++ js "/" ++ i.path })],
         cache := (cacheKey u, (tree.filter fun i => decide (i.type = js "blob") &&
              testExtension indexExtensions i.path).map
            fun i => { path := i.path, url := PROXY_PREFIX ++ js "/" ++ i.path }) :: w.cache }) := by
  simp [getAllFilesCached, cacheMatch, doFetch, cachePut, hmiss, hfetch, hok, hjson]

/-- A call that finds the entry returns it and only reads the cache. -/
theorem getAllFilesCached_hit (gh : GitHubService) (P : Platform) (u : URL) (w : World)
    (cached : List Asset) (hhit : w.cache.lookup (cacheKey u) = some cached) :
    gh.getAllFilesCached P u w =
      (.ok cached, { log := w.log ++ [Effect.cacheMatch (cacheKey u)], cache := w.cache }) := by
  simp [getAllFilesCached, cacheMatch, hhit]

/-- A miss that ends in success stored the returned list under the key. -/
theorem getAllFilesCached_miss_stores (gh : GitHubService) (P : Platform) (u : URL) (w w₁ : World)
    (images : List Asset)
    (hmiss : w.cache.lookup (cacheKey u) = none)
    (hrun : gh.getAllFilesCached P u w = (.ok images, w₁)) :
    w₁.cache.lookup (cacheKey u) = some images ∧
    Effect.fetch gh.treeRequest ∈ issued w w₁ := by
  cases hf : P.fetch (w.log ++ [Effect.cacheMatch (cacheKey u)]) gh.treeRequest with
  | none => simp [getAllFilesCached, cacheMatch, doFetch, hmiss, hf] at hrun
  | some res =>
    cases hok : res.ok with
    | false => simp [getAllFilesCached, cacheMatch, doFetch, hmiss, hf, hok] at hrun
    | true =>
      cases hj : res.json with
      | none => simp [getAllFilesCached, cacheMatch, doFetch, hmiss, hf, hok, hj] at hrun
      | some j =>
        cases j with
        | array items => simp [getAllFilesCached, cacheMatch, doFetch, hmiss, hf, hok, hj] at hrun
        | object t =>
          cases t with
          | none => simp [getAllFilesCached, cacheMatch, doFetch, hmiss, hf, hok, hj] at hrun
          | some tree =>
            rw [getAllFilesCached_miss gh P u w res tree hmiss hf hok hj] at hrun
            simp only [Prod.mk.injEq, Except.ok.injEq] at hrun
            obtain ⟨h1, h2⟩ := hrun
            subst h2
            subst h1
            refine ⟨lookup_cons_self _ _ _, ?_⟩
            rw [issued_append]
            simp

/-- C12: after a first call that missed and returned `images` (which stored
them), a second call whose key is the same, in any world where the entry is
still the stored one, returns `images`; the only operation it issues is the
cache lookup, so there is no upstream fetch, and the cache is unchanged. -/
theorem second_call_served_from_cache (gh gh₂ : GitHubService) (P P₂ : Platform) (u u₂ : URL)
    (w w₁ w₂ : World) (images : List Asset)
    (hmiss : w.cache.lookup (cacheKey u) = none)
    (hfirst : gh.getAllFilesCached P u w = (.ok images, w₁))
    (hkey : cacheKey u₂ = cacheKey u)
    (hstill : w₂.cache.lookup (cacheKey u) = w₁.cache.lookup (cacheKey u)) :
    (gh₂.getAllFilesCached P₂ u₂ w₂).1 = .ok images ∧
    issued w₂ (gh₂.getAllFilesCached P₂ u₂ w₂).2 = [Effect.cacheMatch (cacheKey u)] ∧
    (∀ req, Effect.fetch req ∉ issued w₂ (gh₂.getAllFilesCached P₂ u₂ w₂).2) ∧
    (gh₂.getAllFilesCached P₂ u₂ w₂).2.cache = w₂.cache := by
  have hstored := (getAllFilesCached_miss_stores gh P u w w₁ images hmiss hfirst).1
  have hhit : w₂.cache.lookup (cacheKey u₂) = some images := by rw [hkey, hstill, hstored]
  rw [getAllFilesCached_hit gh₂ P₂ u₂ w₂ images hhit, issued_append, hkey]
  refine ⟨rfl, rfl, ?_, rfl⟩
  intro req hreq
  simp at hreq

/-- C12 at the sample tree: a dashboard call after a batch-export call. -/
theorem second_call_witness :
    (sampleService.getAllFilesCached treePlatform dashboardUrl afterFirstCall).1 = .ok sampleIndex ∧
    issued afterFirstCall (sampleService.getAllFilesCached treePlatform dashboardUrl afterFirstCall).2
      = [Effect.cacheMatch (cacheKey exportRequest.url)] ∧
    (∀ req, Effect.fetch req ∉
      issued afterFirstCall (sampleService.getAllFilesCached treePlatform dashboardUrl afterFirstCall).2) ∧
    (sampleService.getAllFilesCached treePlatform dashboardUrl afterFirstCall).2.cache
      = afterFirstCall.cache :=
  second_call_served_from_cache sampleService sampleService treePlatform treePlatform
    exportRequest.url dashboardUrl emptyWorld afterFirstCall afterFirstCall sampleIndex
    rfl (by rfl) (by decide) rfl

/-! ## Image filters -/

theorem canonicalize_eq_iff (c d : Nat) (hd : patternUnit d) :
    canonicalize c = canonicalize d ↔ toLowerAscii c = d := by
  unfold canonicalize toLowerAscii patternUnit at *
  split <;> split <;> split <;> omega

theorem startsWith_canonicalize : ∀ (s t : JSString), (∀ d ∈ t, patternUnit d) →
    startsWith (s.map canonicalize) (t.map canonicalize) = startsWith (s.map toLowerAscii) t
  | _, [], _ => by simp [startsWith]
  | [], _ :: _, _ => by simp [startsWith]
  | c :: cs, d :: ds, h => by
    have hd := h d (List.mem_cons_self _ _)
    have ih := startsWith_canonicalize cs ds (fun x hx => h x (List.mem_cons_of_mem _ hx))
    simp only [List.map_cons, startsWith, ih]
    by_cases hc : toLowerAscii c = d
    · simp [hc, (canonicalize_eq_iff c d hd).2 hc]
    · have : ¬ canonicalize c = canonicalize d := fun e => hc ((canonicalize_eq_iff c d hd).1 e)
      simp [hc, this]

theorem testExtension_iff (exts : List JSString) (s : JSString)
    (hexts : ∀ e ∈ exts, ∀ d ∈ e, patternUnit d) :
    testExtension exts s = true ↔ ∃ e ∈ exts, (js "." ++ e) <:+ s.map toLowerAscii := by
  unfold testExtension
  rw [List.any_eq_true]
  constructor
  · rintro ⟨e, he, h⟩
    refine ⟨e, he, ?_⟩
    rw [← List.map_reverse, ← List.map_reverse, startsWith_canonicalize, startsWith_iff,
      List.map_reverse, List.reverse_prefix] at h
    · exact h
    · intro d hd
      rw [List.mem_reverse] at hd
      rcases List.mem_append.1 hd with h1 | h1
      · left
        simpa [js, utf16] using h1
      · exact hexts e he d h1
  · rintro ⟨e, he, h⟩
    refine ⟨e, he, ?_⟩
    rw [← List.map_reverse, ← List.map_reverse, startsWith_canonicalize, startsWith_iff,
      List.map_reverse, List.reverse_prefix]
    · exact h
    · intro d hd
      rw [List.mem_reverse] at hd
      rcases List.mem_append.1 hd with h1 | h1
      · left
        simpa [js, utf16] using h1
      · exact hexts e he d h1

theorem indexExtensions_pattern : ∀ e ∈ indexExtensions, ∀ d ∈ e, patternUnit d := by
  unfold patternUnit
  decide

theorem browseExtensions_pattern : ∀ e ∈ browseExtensions, ∀ d ∈ e, patternUnit d := by
  unfold patternUnit
  decide

theorem index_filter_iff (s : JSString) :
    testExtension indexExtensions s = true ↔ hasImageExtension s :=
  testExtension_iff indexExtensions s indexExtensions_pattern

theorem browse_filter_eq_index (s : JSString) :
    testExtension browseExtensions s = testExtension indexExtensions s := by
  simp only [testExtension, browseExtensions, indexExtensions, List.any_cons, List.any_nil,
    Bool.or_false]
  cases startsWith (s.map canonicalize).reverse ((js "." ++ js "jpg").map canonicalize).reverse <;>
  cases startsWith (s.map canonicalize).reverse ((js "." ++ js "jpeg").map canonicalize).reverse <;>
  cases startsWith (s.map canonicalize).reverse ((js "." ++ js "png").map canonicalize).reverse <;>
  cases startsWith (s.map canonicalize).reverse ((js "." ++ js "gif").map canonicalize).reverse <;>
  cases startsWith (s.map canonicalize).reverse ((js "." ++ js "webp").map canonicalize).reverse <;>
  cases startsWith (s.map canonicalize).reverse ((js "." ++ js "svg").map canonicalize).reverse <;>
  rfl

theorem browse_filter_iff (s : JSString) :
    testExtension browseExtensions s = true ↔ hasImageExtension s := by
  rw [browse_filter_eq_index, index_filter_iff]

/-- C13: on a cache miss with a successful tree snapshot, the result is the
list of records, in snapshot order, of a sublist `kept` of the snapshot that
holds exactly the entries of type `blob` whose path has an image extension
(letter case ignored), each as often as in the snapshot; the record of an
entry has its path and the url `PROXY_PREFIX`, a slash, and the path. -/
theorem tree_index_records (gh : GitHubService) (P : Platform) (u : URL) (w : World)
    (res : FetchResp) (tree : List TreeEntry)
    (hmiss : w.cache.lookup (cacheKey u) = none)
    (hfetch : P.fetch (w.log ++ [Effect.cacheMatch (cacheKey u)]) gh.treeRequest = some res)
    (hok : res.ok = true) (hjson : res.json = some (.object (some tree))) :
    ∃ kept : List TreeEntry,
      (gh.getAllFilesCached P u w).1 =
        .ok (kept.map fun e => { path := e.path, url := PROXY_PREFIX ++ js "/" ++ e.path }) ∧
      kept.Sublist tree ∧
      (∀ e, e ∈ kept ↔ e ∈ tree ∧ e.type = js "blob" ∧ hasImageExtension e.path) ∧
      (∀ e, e.type = js "blob" → hasImageExtension e.path → kept.count e = tree.count e) := by
  refine ⟨tree.filter fun i => decide (i.type = js "blob") && testExtension indexExtensions i.path,
    ?_, List.filter_sublist _, ?_, ?_⟩
  · rw [getAllFilesCached_miss gh P u w res tree hmiss hfetch hok hjson]
  · intro e
    rw [List.mem_filter, Bool.and_eq_true, decide_eq_true_eq, index_filter_iff]
  · intro e hb hext
    exact List.count_filter (by
      rw [Bool.and_eq_true, decide_eq_true_eq, index_filter_iff]
      exact ⟨hb, hext⟩)

/-- C13 at the sample tree. -/
theorem tree_index_records_witness :
    ∃ kept : List TreeEntry,
      (sampleService.getAllFilesCached treePlatform exportRequest.url emptyWorld).1 =
        .ok (kept.map fun e => { path := e.path, url := PROXY_PREFIX ++ js "/" ++ e.path }) ∧
      kept.Sublist sampleTree ∧
      (∀ e, e ∈ kept ↔ e ∈ sampleTree ∧ e.type = js "blob" ∧ hasImageExtension e.path) ∧
      (∀ e, e.type = js "blob" → hasImageExtension e.path → kept.count e = sampleTree.count e) :=
  tree_index_records sampleService treePlatform exportRequest.url emptyWorld
    ⟨200, [], some (.object (some sampleTree))⟩ sampleTree rfl rfl (by decide) rfl

/-- The url of one browse entry. -/
theorem browseItem_url (i : ContentItem) :
    ((browseItem i).url ≠ none ↔ i.type = js "file" ∧ hasImageExtension i.name) ∧
    (i.type = js "dir" → (browseItem i).url = none) ∧
    (∀ u, (browseItem i).url = some u → u = PROXY_PREFIX ++ js "/" ++ i.path) := by
  have hne : js "dir" ≠ js "file" := by decide
  unfold browseItem
  by_cases h : i.type = js "file" ∧ testExtension browseExtensions i.name = true
  · simp only [h, and_self, if_true]
    refine ⟨?_, ?_, ?_⟩
    · simp [← browse_filter_iff, h.2]
    · intro hd
      exact absurd hd.symm hne
    · intro u hu
      simp at hu
      simpa using hu.symm
  · simp only [h, if_false]
    refine ⟨?_, fun _ => trivial, ?_⟩
    · rw [← browse_filter_iff]
      simp [h]
    · intro u hu
      cases hu

/-- C14: the browse response has one entry per listing item, in order; the
url of an entry is non-null exactly when the entry is a `file` whose name has
an image extension (letter case ignored), a `dir` entry has url null, and a
non-null url is `PROXY_PREFIX`, a slash, and the path of the entry. -/
theorem browse_urls (P : Platform) (request : Request) (env : Env) (w : World)
    (items : List ContentItem)
    (hauth : checkCookie request env = true)
    (hpath : request.url.pathname = ADMIN_ROUTE ++ js "/api/browse")
    (hlist : (GitHubService.listPath { token := env.GH_TOKEN, repo := env.GH_REPO } P
      (orEmpty request.url.searchPath) w).1 = .ok items) :
    ∃ entries : List BrowseItem,
      (handle P request env w).1 = .ok (json (.browse entries) 200
        [(js "Cache-Control", js "private, max-age=" ++ js (toString CACHE_TTL_FOLDER))]) ∧
      entries.map (fun b => b.item) = items ∧
      ∀ b ∈ entries,
        (b.url ≠ none ↔ b.item.type = js "file" ∧ hasImageExtension b.item.name) ∧
        (b.item.type = js "dir" → b.url = none) ∧
        (∀ u, b.url = some u → u = PROXY_PREFIX ++ js "/" ++ b.item.path) := by
  have h1 : ADMIN_ROUTE ++ js "/api/browse" ≠ ADMIN_ROUTE ++ js "/login" := by decide
  have h2 : ADMIN_ROUTE ++ js "/api/browse" ≠ ADMIN_ROUTE ++ js "/api/dashboard" := by decide
  refine ⟨items.map browseItem, ?_, ?_, ?_⟩
  · rcases hgc : GitHubService.listPath { token := env.GH_TOKEN, repo := env.GH_REPO } P
      (orEmpty request.url.searchPath) w with ⟨r, w1⟩
    rw [hgc] at hlist
    simp only at hlist
    subst hlist
    unfold handle
    simp only [hpath, hauth, h1, h2, false_and, if_false, if_true, Bool.not_true, hgc,
      Bool.false_eq_true]
  · rw [List.map_map]
    exact List.map_id _
  · intro b hb
    obtain ⟨i, _, rfl⟩ := List.mem_map.1 hb
    exact browseItem_url i

/-- C14 at the sample listing. -/
theorem browse_urls_witness :
    ∃ entries : List BrowseItem,
      (handle listingPlatform browseRequest adminEnv emptyWorld).1 = .ok (json (.browse entries) 200
        [(js "Cache-Control", js "private, max-age=" ++ js (toString CACHE_TTL_FOLDER))]) ∧
      entries.map (fun b => b.item) =
        [sampleItem "A" "dir", sampleItem "Z" "dir", sampleItem "a.png" "file",
         sampleItem "b.png" "file"] ∧
      ∀ b ∈ entries,
        (b.url ≠ none ↔ b.item.type = js "file" ∧ hasImageExtension b.item.name) ∧
        (b.item.type = js "dir" → b.url = none) ∧
        (∀ u, b.url = some u → u = PROXY_PREFIX ++ js "/" ++ b.item.path) :=
  browse_urls listingPlatform browseRequest adminEnv emptyWorld
    [sampleItem "A" "dir", sampleItem "Z" "dir", sampleItem "a.png" "file",
     sampleItem "b.png" "file"] (by decide) (by decide) (by rfl)

theorem startsWith_past_slash : ∀ (n d t : JSString), 47 ∉ t →
    startsWith (n ++ 47 :: d) t = startsWith n t
  | _, _, [], _ => by simp [startsWith]
  | [], d, q :: qs, h => by
    have : ¬ 47 = q := fun e => h (by simp [e])
    simp [startsWith, this]
  | c :: cs, d, q :: qs, h => by
    have ih := startsWith_past_slash cs d qs (fun hm => h (List.mem_cons_of_mem _ hm))
    show startsWith (c :: (cs ++ 47 :: d)) (q :: qs) = startsWith (c :: cs) (q :: qs)
    simp only [startsWith, ih]

theorem pattern_no_slash :
    ∀ e ∈ indexExtensions, 47 ∉ ((js "." ++ e).map canonicalize).reverse := by
  decide

theorem testExtension_of_path (dir name : JSString) :
    testExtension indexExtensions (dir ++ js "/" ++ name) = testExtension indexExtensions name := by
  have hslash : js "/" = [47] := by decide
  have hc : canonicalize 47 = 47 := by decide
  apply Bool.eq_iff_iff.2
  unfold testExtension
  rw [List.any_eq_true, List.any_eq_true]
  have key : ∀ e ∈ indexExtensions,
      startsWith ((dir ++ js "/" ++ name).map canonicalize).reverse
        ((js "." ++ e).map canonicalize).reverse =
      startsWith (name.map canonicalize).reverse ((js "." ++ e).map canonicalize).reverse := by
    intro e he
    have : ((dir ++ js "/" ++ name).map canonicalize).reverse =
        (name.map canonicalize).reverse ++ 47 :: (dir.map canonicalize).reverse := by
      simp [hslash, hc]
    rw [this, startsWith_past_slash _ _ _ (pattern_no_slash e he)]
  constructor
  · rintro ⟨e, he, h⟩
    exact ⟨e, he, by rw [← key e he]; exact h⟩
  · rintro ⟨e, he, h⟩
    exact ⟨e, he, by rw [key e he]; exact h⟩

/-- C19: for an entry whose path is its name or a directory, a slash and its
name, the index filter accepts the path exactly when the browse filter accepts
the name; so a `file` entry has a url in the listing exactly when the index
filter accepts it as a blob.  (The name need not be free of slashes.) -/
theorem filters_agree (i : ContentItem)
    (hpath : i.path = i.name ∨ ∃ dir, i.path = dir ++ js "/" ++ i.name) :
    (testExtension indexExtensions i.path = true ↔ testExtension browseExtensions i.name = true) ∧
    (i.type = js "file" →
      ((browseItem i).url ≠ none ↔
        (decide (js "blob" = js "blob") && testExtension indexExtensions i.path) = true)) := by
  have hagree : testExtension indexExtensions i.path = testExtension browseExtensions i.name := by
    rw [browse_filter_eq_index]
    rcases hpath with h | ⟨dir, h⟩
    · rw [h]
    · rw [h, testExtension_of_path]
  refine ⟨by rw [hagree], ?_⟩
  intro hfile
  rw [(browseItem_url i).1, hagree, ← browse_filter_iff]
  simp [hfile]

/-- C19 at `a/b/Photo.JPEG`. -/
theorem filters_agree_witness :
    (testExtension indexExtensions (js "a/b/Photo.JPEG") = true ↔
      testExtension browseExtensions (js "Photo.JPEG") = true) ∧
    (js "file" = js "file" →
      ((browseItem ⟨js "Photo.JPEG", js "a/b/Photo.JPEG", js "file", js "0", none⟩).url ≠ none ↔
        (decide (js "blob" = js "blob") && testExtension indexExtensions (js "a/b/Photo.JPEG"))
          = true)) :=
  filters_agree ⟨js "Photo.JPEG", js "a/b/Photo.JPEG", js "file", js "0", none⟩
    (Or.inr ⟨js "a/b", by decide⟩)

/-! ## Session round trip -/

/-- C18, the code at the failing input: with the password `a:b`, `handleLogin`
accepts the credentials and issues the token `YWRtaW46YTpi`, which decodes to
`admin:a:b`; `checkCookie` rejects a request that presents it, and the admin
API answers 401.  The token of the colon-free credentials `admin` / `pw` is
accepted. -/
theorem login_token_rejected_with_colon :
    checkCookie moveRequest adminEnv = true ∧
    handleLogin colonLogin colonEnv =
      .ok { status := 302,
            headers := [(js "Set-Cookie", COOKIE_NAME ++ js "=" ++ js "YWRtaW46YTpi" ++ js "; Path="
                          ++ ADMIN_ROUTE ++ js "; Max-Age=86400; HttpOnly; SameSite=Strict; Secure"),
                        (js "Location", ADMIN_ROUTE)],
            body := .text (js "Success") } ∧
    atob (js "YWRtaW46YTpi") = .ok (js "admin:a:b") ∧
    checkCookie colonSession colonEnv = false ∧
    (handle treePlatform colonSession colonEnv emptyWorld).1 =
      .ok (json (.error (js "Unauthorized")) 401 []) := by
  refine ⟨by decide, by rfl, by rfl, by decide, by rfl⟩

end Index

section Proxy
open AdminController GitHubService

/-! ## Proxy relay and access gate -/

theorem headersGet_eq (name : JSString) (hs : List (JSString × JSString)) :
    headersGet name hs =
      match valuesOf (lowerName name) hs with
      | [] => none
      | v :: vs => some (vs.foldl (fun acc x => acc ++ js ", " ++ x) v) := rfl

theorem valuesOf_delete (m name : JSString) (hs : List (JSString × JSString)) :
    valuesOf m (headersDelete name hs) = if m = lowerName name then [] else valuesOf m hs := by
  unfold valuesOf headersDelete
  rw [List.filter_filter]
  by_cases hm : m = lowerName name
  · subst hm
    simp
  · simp only [hm, if_false]
    congr 1
    apply List.filter_congr
    intro h _
    by_cases h1 : lowerName h.1 = m
    · have : ¬ lowerName h.1 = lowerName name := fun e => hm (h1 ▸ e)
      simp [h1, this, hm]
    · simp [h1]

theorem valuesOf_set (m name value : JSString) (hs : List (JSString × JSString)) :
    valuesOf m (headersSet name value hs) =
      if m = lowerName name then [value] else valuesOf m hs := by
  induction hs with
  | nil =>
    by_cases hm : m = lowerName name
    · simp [headersSet, valuesOf, hm]
    · have : ¬ lowerName name = m := fun e => hm e.symm
      simp [headersSet, valuesOf, hm, this]
  | cons h hs ih =>
    simp only [headersSet]
    by_cases hh : lowerName h.1 = lowerName name
    · simp only [hh, if_true]
      by_cases hm : m = lowerName name
      · have hd := valuesOf_delete m name hs
        simp only [hm, if_true] at hd ⊢
        simp only [valuesOf] at hd
        simp [valuesOf, hh, hd]
      · have hd := valuesOf_delete m name hs
        simp only [hm, if_false] at hd ⊢
        have h2 : ¬ lowerName name = m := fun e => hm e.symm
        simp only [valuesOf] at hd
        simp [valuesOf, hh, h2, hd]
    · simp only [hh, if_false]
      by_cases hm : m = lowerName name
      · simp only [hm, if_true] at ih ⊢
        simp only [valuesOf] at ih
        simp [valuesOf, hh, ih]
      · simp only [hm, if_false] at ih ⊢
        simp only [valuesOf] at ih
        by_cases h3 : lowerName h.1 = m
        · simp [valuesOf, h3, ih]
        · simp [valuesOf, h3, ih]

theorem untouched_delete (name : JSString) (hs : List (JSString × JSString))
    (hn : lowerName name ∈ relayNames) : untouched (headersDelete name hs) = untouched hs := by
  unfold untouched headersDelete
  rw [List.filter_filter]
  apply List.filter_congr
  intro h _
  by_cases h1 : lowerName h.1 = lowerName name
  · have : lowerName h.1 ∈ relayNames := h1 ▸ hn
    simp [this]
  · simp [h1]

theorem untouched_set (name value : JSString) (hs : List (JSString × JSString))
    (hn : lowerName name ∈ relayNames) : untouched (headersSet name value hs) = untouched hs := by
  induction hs with
  | nil => simp [headersSet, untouched, hn]
  | cons h hs ih =>
    simp only [headersSet]
    by_cases hh : lowerName h.1 = lowerName name
    · simp only [hh, if_true]
      have hd := untouched_delete name hs hn
      have hmem : lowerName h.1 ∈ relayNames := hh ▸ hn
      unfold untouched at hd ⊢
      simp only [List.filter_cons, hn, hmem, not_true_eq_false, decide_False, Bool.false_eq_true,
        if_false, hd]
    · simp only [hh, if_false]
      unfold untouched at ih ⊢
      simp only [List.filter_cons, ih]

/-- Whatever the network answers, the relay issues exactly its one upstream call. -/
theorem proxy_issues_one_call (P : Platform) (request : Request) (url : URL) (w : World) :
    issued w (ProxyService.handle P request url w).2 =
      [Effect.fetch (ProxyService.upstreamRequest request url)] := by
  unfold ProxyService.handle doFetch
  cases P.fetch w.log (ProxyService.upstreamRequest request url) with
  | none => exact issued_append _ _ _
  | some r =>
    by_cases h : r.status = 404
    · simp only [h, if_true]
      exact issued_append _ _ _
    · by_cases h2 : r.status < 200 ∨ 599 < r.status
      · simp only [h, h2, if_false, if_true]
        exact issued_append _ _ _
      · simp only [h, h2, if_false]
        exact issued_append _ _ _

/-- C15: when the upstream answer has status 404, the relay returns status
404 with the body `File not found.` and no header of the upstream answer,
whatever the upstream body and headers are. -/
theorem proxy_not_found (P : Platform) (request : Request) (url : URL) (w : World)
    (resp : FetchResp)
    (hfetch : P.fetch w.log (ProxyService.upstreamRequest request url) = some resp)
    (hstatus : resp.status = 404) :
    (ProxyService.handle P request url w).1 =
      { status := 404, headers := [], body := .text (js "File not found.") } := by
  simp [ProxyService.handle, doFetch, hfetch, hstatus]

/-- C15 at an upstream 404 with an error page and headers of its own. -/
theorem proxy_not_found_witness :
    (ProxyService.handle (rawPlatform 404) assetRequest assetRequest.url emptyWorld).1 =
      { status := 404, headers := [], body := .text (js "File not found.") } :=
  proxy_not_found (rawPlatform 404) assetRequest assetRequest.url emptyWorld
    ⟨404, [110, 111], none⟩ rfl rfl

theorem relayNames_lower :
    lowerName (js "access-control-allow-origin") = js "access-control-allow-origin" ∧
    lowerName (js "cache-control") = js "cache-control" ∧
    lowerName (js "content-security-policy") = js "content-security-policy" ∧
    lowerName (js "x-frame-options") = js "x-frame-options" := by
  decide

theorem valuesOf_relay (m : JSString) (up : List (JSString × JSString)) :
    valuesOf m (ProxyService.relayHeaders up) =
      if m = js "x-frame-options" then []
      else if m = js "content-security-policy" then []
      else if m = js "cache-control" then [js "public, max-age=31536000"]
      else if m = js "access-control-allow-origin" then [js "*"]
      else valuesOf m up := by
  unfold ProxyService.relayHeaders
  rw [valuesOf_delete, valuesOf_delete, valuesOf_set, valuesOf_set,
    relayNames_lower.1, relayNames_lower.2.1, relayNames_lower.2.2.1, relayNames_lower.2.2.2]

theorem untouched_relay (up : List (JSString × JSString)) :
    untouched (ProxyService.relayHeaders up) = untouched up := by
  unfold ProxyService.relayHeaders
  rw [untouched_delete _ _ (by decide), untouched_delete _ _ (by decide),
    untouched_set _ _ _ (by decide), untouched_set _ _ _ (by decide)]

/-- C16 fails as stated: the `cache-control` value the relay forces is
`public, max-age=31536000`, which has no `immutable` directive; and an upstream
answer with status 999, which is not 404, is not relayed with its status but
answered with 502 `Proxy Error`. -/
theorem proxy_relay_not_immutable :
    headersGet (js "cache-control")
      (ProxyService.handle (rawPlatform 200) assetRequest assetRequest.url emptyWorld).1.headers
      = some (js "public, max-age=31536000") ∧
    includes (js "public, max-age=31536000") (js "immutable") = false ∧
    (rawPlatform 999).fetch emptyWorld.log (ProxyService.upstreamRequest assetRequest assetRequest.url)
      = some ⟨999, [110, 111], none⟩ ∧
    (ProxyService.handle (rawPlatform 999) assetRequest assetRequest.url emptyWorld).1 =
      { status := 502, headers := [], body := .text (js "Proxy Error") } := by
  refine ⟨by decide, by decide, rfl, by decide⟩

/-- C16 as amended: when the upstream answer has a status from 200 to 599
other than 404, the relayed response has the upstream status and body; its
`access-control-allow-origin` is `*`, its `cache-control` is
`public, max-age=31536000` (one year, public), it has no
`content-security-policy` and no `x-frame-options` header, every other header
name reads as it does upstream, and the headers under other names are the
upstream ones, in order. -/
theorem proxy_relay (P : Platform) (request : Request) (url : URL) (w : World)
    (resp : FetchResp)
    (hfetch : P.fetch w.log (ProxyService.upstreamRequest request url) = some resp)
    (hstatus : resp.status ≠ 404)
    (hrange : 200 ≤ resp.status ∧ resp.status ≤ 599) :
    (ProxyService.handle P request url w).1.status = resp.status ∧
    (ProxyService.handle P request url w).1.body = .stream resp.bytes ∧
    headersGet (js "access-control-allow-origin") (ProxyService.handle P request url w).1.headers
      = some (js "*") ∧
    headersGet (js "cache-control") (ProxyService.handle P request url w).1.headers
      = some (js "public, max-age=31536000") ∧
    headersGet (js "content-security-policy") (ProxyService.handle P request url w).1.headers
      = none ∧
    headersGet (js "x-frame-options") (ProxyService.handle P request url w).1.headers = none ∧
    (∀ name, lowerName name ∉ relayNames →
      headersGet name (ProxyService.handle P request url w).1.headers =
        headersGet name (P.responseHeaders w.log (ProxyService.upstreamRequest request url))) ∧
    untouched (ProxyService.handle P request url w).1.headers =
      untouched (P.responseHeaders w.log (ProxyService.upstreamRequest request url)) := by
  have hrun : (ProxyService.handle P request url w).1 =
      { status := resp.status,
        headers := ProxyService.relayHeaders
          (P.responseHeaders w.log (ProxyService.upstreamRequest request url)),
        body := .stream resp.bytes } := by
    have hin : ¬ (resp.status < 200 ∨ 599 < resp.status) := by omega
    simp [ProxyService.handle, doFetch, hfetch, hstatus, hin]
  rw [hrun]
  refine ⟨rfl, rfl, ?_, ?_, ?_, ?_, ?_, untouched_relay _⟩
  · rw [headersGet_eq, relayNames_lower.1, valuesOf_relay]
    rfl
  · rw [headersGet_eq, relayNames_lower.2.1, valuesOf_relay]
    rfl
  · rw [headersGet_eq, relayNames_lower.2.2.1, valuesOf_relay]
    rfl
  · rw [headersGet_eq, relayNames_lower.2.2.2, valuesOf_relay]
    rfl
  · intro name hname
    have h1 : lowerName name ≠ js "x-frame-options" := fun e => hname (by rw [e]; decide)
    have h2 : lowerName name ≠ js "content-security-policy" := fun e => hname (by rw [e]; decide)
    have h3 : lowerName name ≠ js "cache-control" := fun e => hname (by rw [e]; decide)
    have h4 : lowerName name ≠ js "access-control-allow-origin" :=
      fun e => hname (by rw [e]; decide)
    rw [headersGet_eq, headersGet_eq, valuesOf_relay]
    simp only [h1, h2, h3, h4, if_false]

/-- C16 as amended, at an upstream 200 with restrictive headers. -/
theorem proxy_relay_witness :
    (ProxyService.handle (rawPlatform 200) assetRequest assetRequest.url emptyWorld).1.status = 200 ∧
    (ProxyService.handle (rawPlatform 200) assetRequest assetRequest.url emptyWorld).1.body
      = .stream [110, 111] ∧
    headersGet (js "access-control-allow-origin")
      (ProxyService.handle (rawPlatform 200) assetRequest assetRequest.url emptyWorld).1.headers
      = some (js "*") ∧
    headersGet (js "cache-control")
      (ProxyService.handle (rawPlatform 200) assetRequest assetRequest.url emptyWorld).1.headers
      = some (js "public, max-age=31536000") ∧
    headersGet (js "content-security-policy")
      (ProxyService.handle (rawPlatform 200) assetRequest assetRequest.url emptyWorld).1.headers
      = none ∧
    headersGet (js "x-frame-options")
      (ProxyService.handle (rawPlatform 200) assetRequest assetRequest.url emptyWorld).1.headers
      = none ∧
    (∀ name, lowerName name ∉ relayNames →
      headersGet name
        (ProxyService.handle (rawPlatform 200) assetRequest assetRequest.url emptyWorld).1.headers =
        headersGet name rawHeaders) ∧
    untouched (ProxyService.handle (rawPlatform 200) assetRequest assetRequest.url emptyWorld).1.headers
      = untouched rawHeaders :=
  proxy_relay (rawPlatform 200) assetRequest assetRequest.url emptyWorld ⟨200, [110, 111], none⟩
    rfl (by decide) (by decide)

/-- C17 fails as stated: for a POST with the body `[1, 2, 3]` the one upstream
call the relay issues has no body. -/
theorem proxy_drops_body :
    uploadRequest.body = some [1, 2, 3] ∧
    issued emptyWorld (ProxyService.handle (rawPlatform 200) uploadRequest uploadRequest.url
      emptyWorld).2 =
      [Effect.fetch { method := js "POST",
                      url := js "https://raw.githubusercontent.com/51hhh/img_bed/main/a/x.png",
                      headers := [(js "cf-connecting-ip", js "203.0.113.7"),
                                  (js "Host", js "raw.githubusercontent.com"),
                                  (js "Referer", js "https://github.com/51hhh/img_bed")],
                      body := none }] := by
  refine ⟨rfl, by decide⟩

/-- C17 as amended: the relay issues exactly one upstream call; its URL is the
inbound URL with the host name replaced by the raw-content host, protocol,
port, path and query unchanged; its method is the inbound method, and it has
no body. -/
theorem proxy_upstream_request (P : Platform) (request : Request) (url : URL) (w : World) :
    issued w (ProxyService.handle P request url w).2 =
      [Effect.fetch (ProxyService.upstreamRequest request url)] ∧
    (ProxyService.upstreamRequest request url).url =
      url.protocol ++ js "//" ++ UPSTREAM_DOMAIN ++
        (if url.port = [] then [] else js ":" ++ url.port) ++ url.pathname ++ url.search ∧
    (url.setHost UPSTREAM_DOMAIN).hostname = UPSTREAM_DOMAIN ∧
    (url.setHost UPSTREAM_DOMAIN).pathname = url.pathname ∧
    (url.setHost UPSTREAM_DOMAIN).search = url.search ∧
    (ProxyService.upstreamRequest request url).method = request.method ∧
    (ProxyService.upstreamRequest request url).body = none :=
  ⟨proxy_issues_one_call P request url w, rfl, rfl, rfl, rfl, rfl, rfl⟩

theorem headersGet_none_of_default (request : Request)
    (h : headersGet (js "cf-connecting-ip") request.headers = none) :
    orElse (headersGet (js "cf-connecting-ip") request.headers) (js "0.0.0.0") = js "0.0.0.0" := by
  rw [h]
  rfl

/-- C20: a request without a `cf-connecting-ip` header is blocked whatever its
country, and the worker answers 403 `Access denied` with the world unchanged
(no proxy or admin handling took place); a request whose `cf-connecting-ip` is
a non-empty address outside the blocklist and that has no country is not
blocked, its region being the default `XX`, which is not in the blocklist. -/
theorem access_gate_defaults (P : Platform) (env : Env) (w : World) (r₁ r₂ : Request)
    (ip : JSString)
    (hnone : headersGet (js "cf-connecting-ip") r₁.headers = none)
    (hip : headersGet (js "cf-connecting-ip") r₂.headers = some ip)
    (hnonempty : ip ≠ [])
    (hallowed : ip ∉ BLOCKED_IPS)
    (hcountry : r₂.country = none) :
    (isBlocked r₁ = true ∧
      fetch P r₁ env w =
        (.ok { status := 403, headers := [], body := .text (js "Access denied") }, w)) ∧
    orElse r₂.country (js "XX") = js "XX" ∧ js "XX" ∉ BLOCKED_REGIONS ∧
    isBlocked r₂ = false := by
  have hb1 : isBlocked r₁ = true := by
    unfold isBlocked
    rw [headersGet_none_of_default r₁ hnone]
    have : BLOCKED_IPS.contains (js "0.0.0.0") = true := by decide
    show (BLOCKED_REGIONS.contains (orElse r₁.country (js "XX")) ||
      BLOCKED_IPS.contains (js "0.0.0.0")) = true
    rw [this, Bool.or_true]
  refine ⟨⟨hb1, ?_⟩, ?_, by decide, ?_⟩
  · unfold fetch
    simp [hb1]
  · rw [hcountry]
    rfl
  · rw [← Bool.not_eq_true]
    unfold isBlocked
    rw [hcountry, hip]
    have h1 : orElse none (js "XX") = js "XX" := rfl
    have h2 : orElse (some ip) (js "0.0.0.0") = ip := by
      cases ip with
      | nil => exact absurd rfl hnonempty
      | cons c cs => rfl
    have h3 : BLOCKED_REGIONS.contains (js "XX") = false := by decide
    rw [h1, h2]
    show (BLOCKED_REGIONS.contains (js "XX") || BLOCKED_IPS.contains ip) = true → False
    rw [h3, Bool.false_or]
    intro hc
    exact hallowed (List.mem_of_elem_eq_true hc)

/-- C20 at a request without the header and one from 203.0.113.7. -/
theorem access_gate_defaults_witness :
    (isBlocked noAddressRequest = true ∧
      fetch (rawPlatform 200) noAddressRequest adminEnv emptyWorld =
        (.ok { status := 403, headers := [], body := .text (js "Access denied") }, emptyWorld)) ∧
    orElse assetRequest.country (js "XX") = js "XX" ∧ js "XX" ∉ BLOCKED_REGIONS ∧
    isBlocked assetRequest = false :=
  access_gate_defaults (rawPlatform 200) adminEnv emptyWorld noAddressRequest assetRequest
    (js "203.0.113.7") (by decide) (by decide) (by decide) (by decide) rfl

end Proxy

end ImgBed
